import Mathlib

/-!
Shallow embedding of the libvirt storage driver core
(`src/storage/storage_driver.c`): the pool/volume registry, the pool and
volume lifecycle operations, the asynchronous build protocol and the
state-file bookkeeping.

Modelling conventions:
- every operation is a pure function from the driver state (plus its
  arguments) to a new driver state and a result;
- backend entry points are external collaborators: their presence is a
  `Caps` record of booleans (absence of an entry point means the
  operation is unsupported) and the outcome of each call made during one
  operation is supplied by an `Oc` oracle record;
- 64-bit unsigned counter arithmetic is modelled with explicit `% 2^64`;
- locks are not modelled (each operation is one serialized step); the
  deliberately unlocked build window of the async-build protocol is
  exposed as an explicit intermediate state;
- memory allocation is assumed to succeed, and handle creation
  (`virGetStoragePool` / `virGetStorageVol`) is assumed to succeed.
-/

namespace StorageDriver

/-- 2^64, the modulus of the C `unsigned long long` counters. -/
def W64 : Nat := 18446744073709551616

/-- Unsigned 64-bit addition (`a + b` on `unsigned long long`). -/
def add64 (a b : Nat) : Nat := (a + b) % W64

/-- Unsigned 64-bit subtraction (`a - b` on `unsigned long long`, wraps on
underflow). -/
def sub64 (a b : Nat) : Nat := (a + W64 - b % W64) % W64

/-- Pool type tag (`virStoragePoolType`); only the disk type is treated
specially by the driver core (its backend self-reports pool counters). -/
inductive PoolType where
  | dir
  | fs
  | logical
  | disk
  | iscsi
deriving DecidableEq, Repr

/-- Volume target data: capacity / allocation / physical byte counters and
the target path (`virStorageVolTarget` as used by the driver core). -/
structure VolTarget where
  capacity : Nat
  allocation : Nat
  has_allocation : Bool
  physical : Nat
  path : String
deriving DecidableEq, Repr

/-- Volume definition plus the two runtime flags the driver keeps on each
volume object (`building`, `in_use`). -/
structure VolDef where
  name : String
  key : Option String
  target : VolTarget
  building : Bool
  in_use : Nat
deriving DecidableEq, Repr

/-- Pool definition (`virStoragePoolDef`): identity, type tag and the
capacity / allocation / available byte counters. -/
structure PoolDef where
  name : String
  uuid : Nat
  ptype : PoolType
  capacity : Nat
  allocation : Nat
  available : Nat
  targetPath : String
deriving DecidableEq, Repr

/-- Pool object (`virStoragePoolObj`): current definition, optional pending
definition, runtime flags, the async job counter and the owned volumes. -/
structure PoolObj where
  pdef : PoolDef
  newDef : Option PoolDef
  isActive : Bool
  autostart : Bool
  configFile : Option String
  asyncjobs : Nat
  vols : List VolDef
deriving DecidableEq, Repr

/-- Lifecycle / refresh event kinds queued to the event sink. -/
inductive EventKind where
  | started
  | stopped
  | poolDefined
  | poolUndefined
  | created
  | deleted
  | refreshed
deriving DecidableEq, Repr

/-- An event queued to the event sink: pool name, uuid and kind. -/
structure Event where
  name : String
  uuid : Nat
  kind : EventKind
deriving DecidableEq, Repr

/-- The driver state: the pool registry, the set of per-pool state files
(named by pool name), the set of per-pool config files and the queue of
emitted events. -/
structure DriverState where
  pools : List PoolObj
  stateFiles : List String
  configFiles : List String
  events : List Event
deriving DecidableEq, Repr

/-- Reference to a pool handle (`virStoragePoolPtr`): name and uuid. -/
structure PoolRef where
  name : String
  uuid : Nat
deriving DecidableEq, Repr

/-- Reference to a volume handle (`virStorageVolPtr`): owning pool name and
volume name. -/
structure VolRef where
  pool : String
  name : String
deriving DecidableEq, Repr

/-- Error outcomes, one constructor per distinct `virReportError` cause in
the driver core. -/
inductive Err where
  | parseFailed
  | badName
  | aclDenied
  | duplicatePool
  | duplicateSource
  | missingBackend
  | poolNotFound
  | volNotFound
  | poolNotActive
  | poolAlreadyActive
  | poolStillActive
  | asyncJobsRunning
  | volInUse
  | volBuilding
  | volExists
  | volNameInUse
  | capacityRequired
  | notSupported
  | invalidFlags
  | badAlgorithm
  | shrinkBelowAllocation
  | shrinkNeedsFlag
  | notEnoughSpace
  | backendFailed
  | saveDefFailed
deriving DecidableEq, Repr

/-- The `virErrCode` each error cause is reported with in the source. -/
inductive ErrCode where
  | noStoragePool
  | noStorageVol
  | operationInvalid
  | operationFailed
  | internalError
  | noSupport
  | invalidArg
  | xmlError
  | storageVolExist
  | accessDenied
deriving DecidableEq, Repr

/-- Map every error cause to the `VIR_ERR_*` code the source reports it
with (e.g. the async-jobs refusal is reported as `VIR_ERR_INTERNAL_ERROR`,
and the missing-capacity refusal as `VIR_ERR_NO_SUPPORT`). -/
def Err.code : Err → ErrCode
  | .parseFailed => .xmlError
  | .badName => .xmlError
  | .aclDenied => .accessDenied
  | .duplicatePool => .operationFailed
  | .duplicateSource => .operationFailed
  | .missingBackend => .internalError
  | .poolNotFound => .noStoragePool
  | .volNotFound => .noStorageVol
  | .poolNotActive => .operationInvalid
  | .poolAlreadyActive => .operationInvalid
  | .poolStillActive => .operationInvalid
  | .asyncJobsRunning => .internalError
  | .volInUse => .operationInvalid
  | .volBuilding => .operationInvalid
  | .volExists => .storageVolExist
  | .volNameInUse => .internalError
  | .capacityRequired => .noSupport
  | .notSupported => .noSupport
  | .invalidFlags => .invalidArg
  | .badAlgorithm => .invalidArg
  | .shrinkBelowAllocation => .invalidArg
  | .shrinkNeedsFlag => .invalidArg
  | .notEnoughSpace => .operationFailed
  | .backendFailed => .internalError
  | .saveDefFailed => .internalError

/-- The "invalid-state" error class of the specification's error taxonomy
(section 7): operation forbidden by current state — already active, still
active, not active, still has async jobs, volume in-use or building. -/
def Err.invalidStateClass : Err → Bool
  | .poolNotActive => true
  | .poolAlreadyActive => true
  | .poolStillActive => true
  | .asyncJobsRunning => true
  | .volInUse => true
  | .volBuilding => true
  | _ => false

/-- Backend capability table entry for one pool type
(`virStorageBackend`): which optional entry points are present.
`refreshPool` is not listed because the driver core invokes it without a
presence check (it is mandatory for every backend). -/
structure Caps where
  hasBuildPool : Bool
  hasStartPool : Bool
  hasStopPool : Bool
  hasDeletePool : Bool
  hasCheckPool : Bool
  hasCreateVol : Bool
  hasBuildVol : Bool
  hasBuildVolFrom : Bool
  hasDeleteVol : Bool
  hasResizeVol : Bool
  hasWipeVol : Bool
  hasUploadVol : Bool
  hasDownloadVol : Bool
  hasRefreshVol : Bool
deriving DecidableEq, Repr

/-- Update applied to a volume's target by a successful backend
`refreshVol` (or by the refresh-scan target update after a wipe). -/
structure VolUpdate where
  capacity : Nat
  allocation : Nat
  physical : Nat
deriving DecidableEq, Repr

/-- Outcome oracle for the external calls one operation makes: ACL checks,
backend entry-point results, state/config file writes and the volume list
a backend `refreshPool` leaves in the pool.  `refreshVolA` / `refreshVolB`
are the outcomes of the first and second `refreshVol` call an operation
makes (`none` means the call failed). -/
structure Oc where
  acl : Bool
  sourceDup : Bool
  buildPool : Bool
  startPool : Bool
  stopPool : Bool
  saveState : Bool
  saveDef : Bool
  rpOk : Bool
  rpVols : List VolDef
  ploopRestore : Bool
  createVolKey : Option String
  buildVol : Bool
  buildVolFrom : Bool
  deleteVol : Bool
  resizeVol : Bool
  wipeVol : Bool
  wipeUpdRet : Int
  wipeUpd : VolUpdate
  refreshVolA : Option VolUpdate
  refreshVolB : Option VolUpdate
deriving DecidableEq, Repr

/-- Find a pool object by name (`virStoragePoolObjFindByName`). -/
def getPoolByName (st : DriverState) (n : String) : Option PoolObj :=
  st.pools.find? (fun p => p.pdef.name == n)

/-- Find a pool object by uuid (`virStoragePoolObjFindByUUID`). -/
def getPoolByUUID (st : DriverState) (u : Nat) : Option PoolObj :=
  st.pools.find? (fun p => p.pdef.uuid == u)

/-- Rewrite the pool object named `n` in place. -/
def updatePool (st : DriverState) (n : String) (f : PoolObj → PoolObj) : DriverState :=
  { st with pools := st.pools.map (fun p => if p.pdef.name == n then f p else p) }

/-- Remove the pool object named `n` from the registry
(`virStoragePoolObjRemove`; the registry keeps names unique, so removal by
name matches the source's removal of the specific object). -/
def removePool (st : DriverState) (n : String) : DriverState :=
  { st with pools := st.pools.filter (fun p => p.pdef.name != n) }

/-- Find a volume by name inside one pool (`virStorageVolDefFindByName`). -/
def volFind (p : PoolObj) (n : String) : Option VolDef :=
  p.vols.find? (fun v => v.name == n)

/-- Rewrite the volume named `vn` of the pool named `n` in place. -/
def updateVolIn (st : DriverState) (n vn : String) (f : VolDef → VolDef) : DriverState :=
  updatePool st n (fun q =>
    { q with vols := q.vols.map (fun w => if w.name == vn then f w else w) })

/-- Write the state file for pool `n` (`virStoragePoolSaveState` success). -/
def addStateFile (st : DriverState) (n : String) : DriverState :=
  if n ∈ st.stateFiles then st else { st with stateFiles := st.stateFiles ++ [n] }

/-- Unlink the state file for pool `n` (`unlink(stateFile)`). -/
def removeStateFile (st : DriverState) (n : String) : DriverState :=
  { st with stateFiles := st.stateFiles.filter (fun m => m != n) }

/-- Queue an event to the event sink (`virObjectEventStateQueue`). -/
def pushEvent (st : DriverState) (e : Event) : DriverState :=
  { st with events := st.events ++ [e] }

/-- Apply a backend target update to a volume. -/
def applyUpd (v : VolDef) (u : VolUpdate) : VolDef :=
  { v with target := { v.target with
      capacity := u.capacity
      allocation := u.allocation
      physical := u.physical } }

/-- Modelled from the spec: `virStoragePoolObjIsDuplicate` (registry insert
rejects a definition whose name or UUID already exists; the helper lives
in `virstorageobj.c`, outside the given source). -/
def isDuplicate (st : DriverState) (d : PoolDef) : Bool :=
  st.pools.any (fun p => p.pdef.name == d.name || p.pdef.uuid == d.uuid)

/-- Modelled from the spec: `virStoragePoolObjAssignDef` for a definition
not yet in the registry — insert a fresh, inactive pool object
(`virstorageobj.c`, outside the given source). -/
def freshPoolObj (d : PoolDef) : PoolObj :=
  { pdef := d
    newDef := none
    isActive := false
    autostart := false
    configFile := none
    asyncjobs := 0
    vols := [] }

/-- Pool create/start flag bits (`VIR_STORAGE_POOL_CREATE_WITH_BUILD`,
`..._OVERWRITE`, `..._NO_OVERWRITE`). -/
structure PoolCreateFlags where
  withBuild : Bool
  overwrite : Bool
  noOverwrite : Bool
deriving DecidableEq, Repr

/-- Whether the create/start flags request a pool build
(`build_flags || (flags & VIR_STORAGE_POOL_CREATE_WITH_BUILD)`). -/
def buildRequested (fl : PoolCreateFlags) : Bool :=
  fl.overwrite || fl.noOverwrite || fl.withBuild

/-- Demote / remove a pool that became inactive
(`virStoragePoolUpdateInactive`): a transient pool (no config file) is
removed from the registry; a persistent pool with a pending definition has
it promoted to current. -/
def poolUpdateInactive (st : DriverState) (n : String) : DriverState :=
  match getPoolByName st n with
  | none => st
  | some p =>
    if p.configFile.isNone then removePool st n
    else
      match p.newDef with
      | some d => updatePool st n (fun q => { q with pdef := d, newDef := none })
      | none => st

/-- `storagePoolDefineXML`: parse, validate the name, ACL, duplicate and
source-collision checks, backend lookup, insert, persist the definition to
the config directory (removing the object again if that fails), emit a
"defined" event. -/
def storagePoolDefineXML (st : DriverState) (parsed : Option PoolDef)
    (backend : Option Caps) (oc : Oc) : DriverState × Except Err PoolRef :=
  match parsed with
  | none => (st, .error .parseFailed)
  | some newDef =>
    if newDef.name.data.contains (Char.ofNat 10) then (st, .error .badName)
    else if !oc.acl then (st, .error .aclDenied)
    else if isDuplicate st newDef then (st, .error .duplicatePool)
    else if oc.sourceDup then (st, .error .duplicateSource)
    else
      match backend with
      | none => (st, .error .missingBackend)
      | some _caps =>
        if !oc.saveDef then (st, .error .saveDefFailed)
        else
          let n := newDef.name
          let st1 := { st with
            pools := st.pools ++ [{ freshPoolObj newDef with configFile := some n }]
            configFiles := if n ∈ st.configFiles then st.configFiles
                           else st.configFiles ++ [n] }
          (pushEvent st1 ⟨n, newDef.uuid, .poolDefined⟩, .ok ⟨n, newDef.uuid⟩)

/-- `storagePoolCreateXML`: parse, checks, insert the pool object, then
optionally build, start, write the state file and refresh; on any failure
after insertion the object is removed again (and a written state file
unlinked); on success the pool becomes active and a "started" event is
queued. -/
def storagePoolCreateXML (st : DriverState) (parsed : Option PoolDef)
    (fl : PoolCreateFlags) (backend : Option Caps) (oc : Oc) :
    DriverState × Except Err PoolRef :=
  if fl.overwrite && fl.noOverwrite then (st, .error .invalidFlags)
  else
    match parsed with
    | none => (st, .error .parseFailed)
    | some newDef =>
      if !oc.acl then (st, .error .aclDenied)
      else if isDuplicate st newDef then (st, .error .duplicatePool)
      else if oc.sourceDup then (st, .error .duplicateSource)
      else
        match backend with
        | none => (st, .error .missingBackend)
        | some caps =>
          let n := newDef.name
          let st1 := { st with pools := st.pools ++ [freshPoolObj newDef] }
          if caps.hasBuildPool && buildRequested fl && !oc.buildPool then
            (removePool st1 n, .error .backendFailed)
          else if caps.hasStartPool && !oc.startPool then
            (removePool st1 n, .error .backendFailed)
          else
            let st2 := updatePool st1 n (fun q => { q with vols := [] })
            if !oc.saveState then
              (removePool (removeStateFile st2 n) n, .error .backendFailed)
            else
              let st3 := updatePool (addStateFile st2 n) n
                (fun q => { q with vols := oc.rpVols })
              if !oc.rpOk then
                (removePool (removeStateFile st3 n) n, .error .backendFailed)
              else
                let st4 := updatePool st3 n (fun q => { q with isActive := true })
                (pushEvent st4 ⟨n, newDef.uuid, .started⟩, .ok ⟨n, newDef.uuid⟩)

/-- `storagePoolCreate` (start of a defined pool): requires the pool
inactive; optionally build, then start, clear the volumes, write the state
file and refresh; if the state-file write or the refresh fails the file is
unlinked and the backend stopped; on success the pool becomes active and a
"started" event is queued. -/
def storagePoolCreate (st : DriverState) (ref : PoolRef) (fl : PoolCreateFlags)
    (backend : Option Caps) (oc : Oc) : DriverState × Except Err Unit :=
  if fl.overwrite && fl.noOverwrite then (st, .error .invalidFlags)
  else
    match getPoolByUUID st ref.uuid with
    | none => (st, .error .poolNotFound)
    | some p =>
      if !oc.acl then (st, .error .aclDenied)
      else
        match backend with
        | none => (st, .error .missingBackend)
        | some caps =>
          if p.isActive then (st, .error .poolAlreadyActive)
          else if caps.hasBuildPool && buildRequested fl && !oc.buildPool then
            (st, .error .backendFailed)
          else if caps.hasStartPool && !oc.startPool then
            (st, .error .backendFailed)
          else
            let n := p.pdef.name
            let st1 := updatePool st n (fun q => { q with vols := [] })
            if !oc.saveState then
              (removeStateFile st1 n, .error .backendFailed)
            else
              let st2 := updatePool (addStateFile st1 n) n
                (fun q => { q with vols := oc.rpVols })
              if !oc.rpOk then
                (removeStateFile st2 n, .error .backendFailed)
              else
                let st3 := updatePool st2 n (fun q => { q with isActive := true })
                (pushEvent st3 ⟨n, p.pdef.uuid, .started⟩, .ok ())

/-- `storagePoolDestroy`: requires the pool active and no async jobs;
unlinks the state file first, then stops the backend (a stop failure
returns with the file already gone and the pool still active), clears the
volumes, marks the pool inactive, queues a "stopped" event and applies the
demote/remove-transient rule. -/
def storagePoolDestroy (st : DriverState) (ref : PoolRef)
    (backend : Option Caps) (oc : Oc) : DriverState × Except Err Unit :=
  match getPoolByUUID st ref.uuid with
  | none => (st, .error .poolNotFound)
  | some p =>
    if !oc.acl then (st, .error .aclDenied)
    else
      match backend with
      | none => (st, .error .missingBackend)
      | some caps =>
        if !p.isActive then (st, .error .poolNotActive)
        else if p.asyncjobs > 0 then (st, .error .asyncJobsRunning)
        else
          let n := p.pdef.name
          let st1 := removeStateFile st n
          if caps.hasStopPool && !oc.stopPool then (st1, .error .backendFailed)
          else
            let st2 := updatePool st1 n (fun q => { q with vols := [] })
            let st3 := pushEvent st2 ⟨n, p.pdef.uuid, .stopped⟩
            let st4 := updatePool st3 n (fun q => { q with isActive := false })
            (poolUpdateInactive st4 n, .ok ())

/-- `storagePoolRefresh`: requires the pool active and no async jobs;
clears and rescans the volumes via the backend; on a backend refresh
failure the backend is stopped, the pool marked inactive (the state file
is left in place), a "stopped" event queued and the call fails; on success
a "refreshed" event is queued. -/
def storagePoolRefresh (st : DriverState) (ref : PoolRef)
    (backend : Option Caps) (oc : Oc) : DriverState × Except Err Unit :=
  match getPoolByUUID st ref.uuid with
  | none => (st, .error .poolNotFound)
  | some p =>
    if !oc.acl then (st, .error .aclDenied)
    else
      match backend with
      | none => (st, .error .missingBackend)
      | some _caps =>
        if !p.isActive then (st, .error .poolNotActive)
        else if p.asyncjobs > 0 then (st, .error .asyncJobsRunning)
        else
          let n := p.pdef.name
          let st1 := updatePool st n (fun q => { q with vols := oc.rpVols })
          if !oc.rpOk then
            let st2 := pushEvent st1 ⟨n, p.pdef.uuid, .stopped⟩
            let st3 := updatePool st2 n (fun q => { q with isActive := false })
            (poolUpdateInactive st3 n, .error .backendFailed)
          else
            (pushEvent st1 ⟨n, p.pdef.uuid, .refreshed⟩, .ok ())

/-- `virStorageVolDefFromVol`: find the owning pool by name, require it
active, find the volume by name, look up the backend. -/
def volDefFromVol (st : DriverState) (vref : VolRef) (backend : Option Caps) :
    Except Err (PoolObj × VolDef × Caps) :=
  match getPoolByName st vref.pool with
  | none => .error .poolNotFound
  | some p =>
    if !p.isActive then .error .poolNotActive
    else
      match volFind p vref.name with
      | none => .error .volNotFound
      | some v =>
        match backend with
        | none => .error .missingBackend
        | some caps => .ok (p, v, caps)

/-- `storageVolDeleteInternal`: require backend volume deletion support,
invoke it; on success adjust the pool counters by the volume's allocation
(only when `updateMeta` is set and the pool is not of the disk type, whose
backend self-reports the counters) and remove the volume object. -/
def storageVolDeleteInternal (st : DriverState) (poolName : String) (v : VolDef)
    (caps : Caps) (oc : Oc) (updateMeta : Bool) : DriverState × Except Err Unit :=
  if !caps.hasDeleteVol then (st, .error .notSupported)
  else if !oc.deleteVol then (st, .error .backendFailed)
  else
    let st1 := updatePool st poolName (fun q =>
      if updateMeta && q.pdef.ptype != PoolType.disk then
        { q with pdef := { q.pdef with
            allocation := sub64 q.pdef.allocation v.target.allocation
            available := add64 q.pdef.available v.target.allocation } }
      else q)
    (updatePool st1 poolName
      (fun q => { q with vols := q.vols.filter (fun w => w.name != v.name) }), .ok ())

/-- `storageVolDelete`: resolve the volume, ACL, refuse while in use or
building, then delete with pool-counter maintenance. -/
def storageVolDelete (st : DriverState) (vref : VolRef)
    (backend : Option Caps) (oc : Oc) : DriverState × Except Err Unit :=
  match volDefFromVol st vref backend with
  | .error e => (st, .error e)
  | .ok (p, v, caps) =>
    if !oc.acl then (st, .error .aclDenied)
    else if v.in_use > 0 then (st, .error .volInUse)
    else if v.building then (st, .error .volBuilding)
    else storageVolDeleteInternal st p.pdef.name v caps oc true

/-- Enter the unlocked build window: increment the pool's async job counter
and set the new volume's `building` flag (`virStoragePoolObjIncrAsyncjobs`;
the counter helpers live in `virstorageobj.c`, modelled from the spec's
"non-negative integer" counter). -/
def markBuilding (st : DriverState) (n vn : String) : DriverState :=
  updatePool st n (fun q =>
    { q with
        asyncjobs := q.asyncjobs + 1
        vols := q.vols.map (fun w => if w.name == vn then { w with building := true } else w) })

/-- Leave the unlocked build window: clear the volume's `building` flag and
decrement the pool's async job counter. -/
def unmarkBuilding (st : DriverState) (n vn : String) : DriverState :=
  updatePool st n (fun q =>
    { q with
        asyncjobs := q.asyncjobs - 1
        vols := q.vols.map (fun w => if w.name == vn then { w with building := false } else w) })

/-- Increment the in-use refcount of a source volume for the duration of a
clone (`voldefsrc->in_use++`). -/
def markInUse (st : DriverState) (n vn : String) : DriverState :=
  updateVolIn st n vn (fun w => { w with in_use := w.in_use + 1 })

/-- Decrement the in-use refcount of a source volume after a clone. -/
def unmarkInUse (st : DriverState) (n vn : String) : DriverState :=
  updateVolIn st n vn (fun w => { w with in_use := w.in_use - 1 })

/-- Increment the async job counter of a distinct source pool during a
clone (no-op when the source pool is the destination pool). -/
def markSrcJobs (st : DriverState) (src : Option String) : DriverState :=
  match src with
  | none => st
  | some n => updatePool st n (fun q => { q with asyncjobs := q.asyncjobs + 1 })

/-- Decrement the async job counter of a distinct source pool after a
clone. -/
def unmarkSrcJobs (st : DriverState) (src : Option String) : DriverState :=
  match src with
  | none => st
  | some n => updatePool st n (fun q => { q with asyncjobs := q.asyncjobs - 1 })

/-- Pool-counter maintenance after a successful volume creation: add the
volume's allocation to the pool's allocation and subtract it from the
available space, except for the disk pool type whose backend self-reports
the counters. -/
def volCreateMeta (st : DriverState) (n : String) (alloc : Nat) : DriverState :=
  updatePool st n (fun q =>
    if q.pdef.ptype != PoolType.disk then
      { q with pdef := { q.pdef with
          allocation := add64 q.pdef.allocation alloc
          available := sub64 q.pdef.available alloc } }
    else q)

/-- First phase of `storageVolCreateXML`, up to and including the backend
`createVol` call and the registration of the volume object: pool lookup,
active check, backend lookup, parse, capacity-or-build-support check, ACL,
duplicate-name check, `createVol` support check, discard of any
caller-supplied key, backend `createVol` (which assigns the canonical
key), registration.  Returns the new state, the owning pool's name, the
registered volume and the capability set. -/
def volCreateXMLPre (st : DriverState) (ref : PoolRef) (parsed : Option VolDef)
    (backend : Option Caps) (oc : Oc) :
    Except Err (DriverState × String × VolDef × Caps) :=
  match getPoolByUUID st ref.uuid with
  | none => .error .poolNotFound
  | some p =>
    if !p.isActive then .error .poolNotActive
    else
      match backend with
      | none => .error .missingBackend
      | some caps =>
        match parsed with
        | none => .error .parseFailed
        | some v0 =>
          if v0.target.capacity == 0 && !caps.hasBuildVol then .error .capacityRequired
          else if !oc.acl then .error .aclDenied
          else if (volFind p v0.name).isSome then .error .volExists
          else if !caps.hasCreateVol then .error .notSupported
          else
            match oc.createVolKey with
            | none => .error .backendFailed
            | some k =>
              let v := { v0 with key := some k }
              .ok (updatePool st p.pdef.name
                     (fun q => { q with vols := q.vols ++ [v] }),
                   p.pdef.name, v, caps)

/-- Tail of a volume creation after the (optional) build: backend
`refreshVol` if supported (on failure the just-created volume is deleted
again, without counter maintenance, and the call fails), then pool-counter
maintenance with the volume's (refreshed) allocation. -/
def volCreateTail (st : DriverState) (n : String) (v : VolDef) (caps : Caps)
    (oc : Oc) (refreshOutcome : Option VolUpdate) : DriverState × Except Err VolRef :=
  if caps.hasRefreshVol then
    match refreshOutcome with
    | none => ((storageVolDeleteInternal st n v caps oc false).1, .error .backendFailed)
    | some u =>
      let st1 := updateVolIn st n v.name (fun w => applyUpd w u)
      (volCreateMeta st1 n u.allocation, .ok ⟨n, v.name⟩)
  else
    (volCreateMeta st n v.target.allocation, .ok ⟨n, v.name⟩)

/-- `storageVolCreateXML`: first phase, then — when the backend has a
`buildVol` entry point — the async build protocol (enter the unlocked
window, run the build on a snapshot, re-lock and leave the window; on
build failure remove the volume object), then the refresh/counter tail. -/
def storageVolCreateXML (st : DriverState) (ref : PoolRef) (parsed : Option VolDef)
    (backend : Option Caps) (oc : Oc) : DriverState × Except Err VolRef :=
  match volCreateXMLPre st ref parsed backend oc with
  | .error e => (st, .error e)
  | .ok (st1, n, v, caps) =>
    if caps.hasBuildVol then
      let stBack := unmarkBuilding (markBuilding st1 n v.name) n v.name
      if !oc.buildVol then
        (updatePool stBack n
          (fun q => { q with vols := q.vols.filter (fun w => w.name != v.name) }),
         .error .backendFailed)
      else volCreateTail stBack n v caps oc oc.refreshVolA
    else volCreateTail st1 n v caps oc oc.refreshVolA

/-- The driver state during the unlocked build window of
`storageVolCreateXML` (reached exactly when the first phase succeeds and
the backend has a `buildVol` entry point), together with the owning pool's
name. -/
def volCreateBuildWindow (st : DriverState) (ref : PoolRef) (parsed : Option VolDef)
    (backend : Option Caps) (oc : Oc) : Option (String × DriverState) :=
  match volCreateXMLPre st ref parsed backend oc with
  | .error _ => none
  | .ok (st1, n, v, caps) =>
    if caps.hasBuildVol then some (n, markBuilding st1 n v.name)
    else none

/-- Result of the first phase of `storageVolCreateXMLFrom`: the state after
the new volume is registered, the destination pool name, the registered
volume, the source pool and volume names, the name of the source pool when
it is distinct from the destination, and the capability set. -/
structure FromPre where
  st : DriverState
  destName : String
  v : VolDef
  srcPoolName : String
  srcVolName : String
  srcDistinct : Option String
  caps : Caps
deriving Repr

/-- First phase of `storageVolCreateXMLFrom`, up to and including the
backend `createVol` call and the registration of the new volume: look up
the destination pool by uuid and (when the handle names differ) the source
pool by name, require both active, find the source volume, parse, ACL,
duplicate-name check, default the capacity from the source volume when
omitted or smaller and the allocation from the capacity when omitted,
require `buildVolFrom` support, refuse a source volume that is itself
mid-build, refresh the source volume if supported, discard any
caller-supplied key and invoke `createVol`, register the volume. -/
def volCreateFromPreCont (st : DriverState) (p : PoolObj) (objsrc : Option PoolObj)
    (parsed : Option VolDef) (vsrc : VolRef) (backend : Option Caps) (oc : Oc) :
    Except Err FromPre :=
  if !p.isActive then .error .poolNotActive
  else if (objsrc.map (fun ps => !ps.isActive)).getD false then .error .poolNotActive
  else
    match backend with
    | none => .error .missingBackend
    | some caps =>
      let srcPool := objsrc.getD p
      match volFind srcPool vsrc.name with
        | none => .error .volNotFound
        | some vsrcDef =>
          match parsed with
          | none => .error .parseFailed
          | some v0 =>
            if !oc.acl then .error .aclDenied
            else if (volFind p v0.name).isSome then .error .volNameInUse
            else
              let cap1 := if v0.target.capacity < vsrcDef.target.capacity then
                vsrcDef.target.capacity else v0.target.capacity
              let alloc1 := if !v0.target.has_allocation then cap1 else v0.target.allocation
              let v1 := { v0 with target :=
                { v0.target with capacity := cap1, allocation := alloc1 } }
              if !caps.hasBuildVolFrom then .error .notSupported
              else if vsrcDef.building then .error .volBuilding
              else if caps.hasRefreshVol && oc.refreshVolA.isNone then .error .backendFailed
              else
                let st0 :=
                  match oc.refreshVolA with
                  | some u =>
                    if caps.hasRefreshVol then
                      updateVolIn st srcPool.pdef.name vsrc.name (fun w => applyUpd w u)
                    else st
                  | none => st
                match oc.createVolKey with
                | none => .error .backendFailed
                | some k =>
                  let v := { v1 with key := some k }
                  .ok { st := updatePool st0 p.pdef.name
                          (fun q => { q with vols := q.vols ++ [v] })
                        destName := p.pdef.name
                        v := v
                        srcPoolName := srcPool.pdef.name
                        srcVolName := vsrc.name
                        srcDistinct := objsrc.map (fun ps => ps.pdef.name)
                        caps := caps }

/-- First phase of `storageVolCreateXMLFrom`: resolve the destination pool
by uuid and — when the handle names differ — the source pool by name
(failing when the named source pool does not exist), then continue with
`volCreateFromPreCont`. -/
def volCreateXMLFromPre (st : DriverState) (ref : PoolRef) (parsed : Option VolDef)
    (vsrc : VolRef) (backend : Option Caps) (oc : Oc) : Except Err FromPre :=
  match getPoolByUUID st ref.uuid with
  | none => .error .poolNotFound
  | some p =>
    if ref.name == vsrc.pool then
      volCreateFromPreCont st p none parsed vsrc backend oc
    else
      match getPoolByName st vsrc.pool with
      | none => .error .poolNotFound
      | some ps => volCreateFromPreCont st p (some ps) parsed vsrc backend oc

/-- `storageVolCreateXMLFrom`: first phase, then the async build protocol
against both pools (destination job counter plus `building` flag, source
volume in-use refcount, and — when the source pool is distinct — its job
counter), the backend `buildVolFrom` call, the symmetric unwind, and on
success the refresh/counter tail; on build or refresh failure the new
volume is deleted again without counter maintenance. -/
def storageVolCreateXMLFrom (st : DriverState) (ref : PoolRef) (parsed : Option VolDef)
    (vsrc : VolRef) (backend : Option Caps) (oc : Oc) :
    DriverState × Except Err VolRef :=
  match volCreateXMLFromPre st ref parsed vsrc backend oc with
  | .error e => (st, .error e)
  | .ok pre =>
    let stMid := markSrcJobs
      (markInUse (markBuilding pre.st pre.destName pre.v.name)
        pre.srcPoolName pre.srcVolName) pre.srcDistinct
    let stBack := unmarkSrcJobs
      (unmarkBuilding (unmarkInUse stMid pre.srcPoolName pre.srcVolName)
        pre.destName pre.v.name) pre.srcDistinct
    if !oc.buildVolFrom || (pre.caps.hasRefreshVol && oc.refreshVolB.isNone) then
      ((storageVolDeleteInternal stBack pre.destName pre.v pre.caps oc false).1,
       .error .backendFailed)
    else
      match oc.refreshVolB with
      | some u =>
        if pre.caps.hasRefreshVol then
          let st1 := updateVolIn stBack pre.destName pre.v.name (fun w => applyUpd w u)
          (volCreateMeta st1 pre.destName u.allocation, .ok ⟨pre.destName, pre.v.name⟩)
        else
          (volCreateMeta stBack pre.destName pre.v.target.allocation,
           .ok ⟨pre.destName, pre.v.name⟩)
      | none =>
        (volCreateMeta stBack pre.destName pre.v.target.allocation,
         .ok ⟨pre.destName, pre.v.name⟩)

/-- The driver state during the unlocked build window of
`storageVolCreateXMLFrom` (reached exactly when the first phase succeeds),
together with the destination pool name and the name of the distinct
source pool, if any. -/
def volCreateFromBuildWindow (st : DriverState) (ref : PoolRef) (parsed : Option VolDef)
    (vsrc : VolRef) (backend : Option Caps) (oc : Oc) :
    Option (String × Option String × DriverState) :=
  match volCreateXMLFromPre st ref parsed vsrc backend oc with
  | .error _ => none
  | .ok pre =>
    some (pre.destName, pre.srcDistinct,
      markSrcJobs
        (markInUse (markBuilding pre.st pre.destName pre.v.name)
          pre.srcPoolName pre.srcVolName) pre.srcDistinct)

/-- Volume resize flag bits (`VIR_STORAGE_VOL_RESIZE_ALLOCATE`, `..._DELTA`,
`..._SHRINK`). -/
structure ResizeFlags where
  allocate : Bool
  delta : Bool
  shrink : Bool
deriving DecidableEq, Repr

/-- The absolute target capacity a resize request denotes: with the delta
flag, the current capacity plus the request, or — with the shrink flag —
the current capacity minus `MIN(request, current capacity)`; without the
delta flag, the request itself. -/
def resizeAbsCapacity (fl : ResizeFlags) (capacity curCapacity : Nat) : Nat :=
  if fl.delta then
    if fl.shrink then curCapacity - min capacity curCapacity
    else add64 curCapacity capacity
  else capacity

/-- `storageVolResize`: resolve the volume, ACL, refuse while in use or
building; compute the absolute target capacity; refuse a target below the
current allocation, and a target below the current capacity without the
shrink flag; with the allocate flag the allocation delta must fit in the
pool's available space; require and invoke the backend resize; on success
set the volume's capacity (and, with the allocate flag, its allocation and
the pool's allocation/available counters by the delta — for every pool
type). -/
def storageVolResize (st : DriverState) (vref : VolRef) (capacity : Nat)
    (fl : ResizeFlags) (backend : Option Caps) (oc : Oc) :
    DriverState × Except Err Unit :=
  match volDefFromVol st vref backend with
  | .error e => (st, .error e)
  | .ok (p, v, caps) =>
    if !oc.acl then (st, .error .aclDenied)
    else if v.in_use > 0 then (st, .error .volInUse)
    else if v.building then (st, .error .volBuilding)
    else
      let absCap := resizeAbsCapacity fl capacity v.target.capacity
      if absCap < v.target.allocation then (st, .error .shrinkBelowAllocation)
      else if absCap < v.target.capacity && !fl.shrink then (st, .error .shrinkNeedsFlag)
      else
        let delta := if fl.allocate then absCap - v.target.allocation else 0
        if delta > p.pdef.available then (st, .error .notEnoughSpace)
        else if !caps.hasResizeVol then (st, .error .notSupported)
        else if !oc.resizeVol then (st, .error .backendFailed)
        else
          let st1 := updateVolIn st p.pdef.name v.name (fun w =>
            if fl.allocate then
              { w with target := { w.target with capacity := absCap, allocation := absCap } }
            else
              { w with target := { w.target with capacity := absCap } })
          let st2 :=
            if fl.allocate then
              updatePool st1 p.pdef.name (fun q => { q with pdef := { q.pdef with
                allocation := add64 q.pdef.allocation delta
                available := sub64 q.pdef.available delta } })
            else st1
          (st2, .ok ())

/-- Wipe algorithm tags: `VIR_STORAGE_VOL_WIPE_ALG_ZERO` is 0 and
`VIR_STORAGE_VOL_WIPE_ALG_LAST` is 10. -/
def ALG_ZERO : Nat := 0

/-- Number of recognized wipe algorithms (`VIR_STORAGE_VOL_WIPE_ALG_LAST`). -/
def ALG_LAST : Nat := 10

/-- `storageVolWipePattern`: reject any flag bits, reject an unrecognized
algorithm tag, resolve the volume, ACL, refuse while in use or building,
require and invoke the backend wipe, then re-derive the volume's target
metadata via the refresh-scan target update (`-1` is a failure, `-2` is
tolerated). -/
def storageVolWipePattern (st : DriverState) (vref : VolRef) (algorithm : Nat)
    (flags : Nat) (backend : Option Caps) (oc : Oc) : DriverState × Except Err Unit :=
  if flags != 0 then (st, .error .invalidFlags)
  else if ALG_LAST ≤ algorithm then (st, .error .badAlgorithm)
  else
    match volDefFromVol st vref backend with
    | .error e => (st, .error e)
    | .ok (p, v, caps) =>
      if !oc.acl then (st, .error .aclDenied)
      else if v.in_use > 0 then (st, .error .volInUse)
      else if v.building then (st, .error .volBuilding)
      else if !caps.hasWipeVol then (st, .error .notSupported)
      else if !oc.wipeVol then (st, .error .backendFailed)
      else if oc.wipeUpdRet == -1 then (st, .error .backendFailed)
      else if oc.wipeUpdRet == 0 then
        (updateVolIn st p.pdef.name v.name (fun w => applyUpd w oc.wipeUpd), .ok ())
      else (st, .ok ())

/-- `storageVolWipe`: wipe with the zero algorithm. -/
def storageVolWipe (st : DriverState) (vref : VolRef) (flags : Nat)
    (backend : Option Caps) (oc : Oc) : DriverState × Except Err Unit :=
  storageVolWipePattern st vref ALG_ZERO flags backend oc

/-- Data carried by the upload-stream close callback: the owning pool's
name and, for a ploop volume, the volume path to restore. -/
structure StreamCbData where
  pool_name : String
  vol_path : Option String
deriving DecidableEq, Repr

/-- `virStorageVolPoolRefreshThread`: the background refresh spawned when
an upload stream closes.  Restores the ploop descriptor when needed, looks
the pool up by name, and — only when no async build is in flight — clears
and rescans the pool's volumes via the backend refresh and queues a
"refreshed" event; a refresh failure is logged and never propagated (the
thread returns no result). -/
def virStorageVolPoolRefreshThread (st : DriverState) (cbdata : StreamCbData)
    (backend : Option Caps) (oc : Oc) : DriverState :=
  if cbdata.vol_path.isSome && !oc.ploopRestore then st
  else
    match getPoolByName st cbdata.pool_name with
    | none => st
    | some p =>
      if p.asyncjobs > 0 then st
      else
        match backend with
        | none => st
        | some _caps =>
          let st1 := updatePool st p.pdef.name (fun q => { q with vols := oc.rpVols })
          pushEvent st1 ⟨p.pdef.name, p.pdef.uuid, .refreshed⟩

/-- One caller-facing operation of the driver together with the oracle
outcomes of the external calls it makes. -/
inductive Op where
  | defineXML (parsed : Option PoolDef) (backend : Option Caps) (oc : Oc)
  | poolCreateXML (parsed : Option PoolDef) (fl : PoolCreateFlags)
      (backend : Option Caps) (oc : Oc)
  | poolCreate (ref : PoolRef) (fl : PoolCreateFlags) (backend : Option Caps) (oc : Oc)
  | poolDestroy (ref : PoolRef) (backend : Option Caps) (oc : Oc)
  | poolRefresh (ref : PoolRef) (backend : Option Caps) (oc : Oc)
  | volCreate (ref : PoolRef) (parsed : Option VolDef) (backend : Option Caps) (oc : Oc)
  | volCreateFrom (ref : PoolRef) (parsed : Option VolDef) (vsrc : VolRef)
      (backend : Option Caps) (oc : Oc)
  | volDelete (vref : VolRef) (backend : Option Caps) (oc : Oc)
  | volResize (vref : VolRef) (capacity : Nat) (fl : ResizeFlags)
      (backend : Option Caps) (oc : Oc)
  | volWipePattern (vref : VolRef) (alg : Nat) (flags : Nat)
      (backend : Option Caps) (oc : Oc)
  | refreshThread (cbdata : StreamCbData) (backend : Option Caps) (oc : Oc)

/-- The state transition an operation performs (its caller-visible result
dropped). -/
def applyOp (st : DriverState) : Op → DriverState
  | .defineXML parsed backend oc => (storagePoolDefineXML st parsed backend oc).1
  | .poolCreateXML parsed fl backend oc => (storagePoolCreateXML st parsed fl backend oc).1
  | .poolCreate ref fl backend oc => (storagePoolCreate st ref fl backend oc).1
  | .poolDestroy ref backend oc => (storagePoolDestroy st ref backend oc).1
  | .poolRefresh ref backend oc => (storagePoolRefresh st ref backend oc).1
  | .volCreate ref parsed backend oc => (storageVolCreateXML st ref parsed backend oc).1
  | .volCreateFrom ref parsed vsrc backend oc =>
      (storageVolCreateXMLFrom st ref parsed vsrc backend oc).1
  | .volDelete vref backend oc => (storageVolDelete st vref backend oc).1
  | .volResize vref capacity fl backend oc =>
      (storageVolResize st vref capacity fl backend oc).1
  | .volWipePattern vref alg flags backend oc =>
      (storageVolWipePattern st vref alg flags backend oc).1
  | .refreshThread cbdata backend oc =>
      virStorageVolPoolRefreshThread st cbdata backend oc

/-- The empty driver state at daemon start (no pools, no files, no
events). -/
def initState : DriverState := ⟨[], [], [], []⟩

/-- States reachable from the empty state by driver operations. -/
inductive Reachable : DriverState → Prop where
  | init : Reachable initState
  | step {s : DriverState} (o : Op) : Reachable s → Reachable (applyOp s o)

/-- The state-file invariant of the specification: every pool in the
registry is active exactly when a state file for its name exists. -/
def stateFileInv (st : DriverState) : Prop :=
  ∀ p ∈ st.pools, (p.isActive = true ↔ p.pdef.name ∈ st.stateFiles)

instance (st : DriverState) : Decidable (stateFileInv st) := by
  unfold stateFileInv; infer_instance

/-- Registry well-formedness: pool names are pairwise distinct (enforced by
the duplicate check on insert). -/
def namesUnique (st : DriverState) : Prop :=
  st.pools.Pairwise (fun p q => p.pdef.name ≠ q.pdef.name)

/-- The async job counter of the pool named `n`, when such a pool exists. -/
def poolJobs (st : DriverState) (n : String) : Option Nat :=
  (getPoolByName st n).map (fun p => p.asyncjobs)

theorem getPoolByName_updatePool (st : DriverState) (n : String) (f : PoolObj → PoolObj)
    (hf : ∀ p, (f p).pdef.name = p.pdef.name) (m : String) :
    getPoolByName (updatePool st n f) m =
      (getPoolByName st m).map (fun p => if p.pdef.name == n then f p else p) := by
  unfold getPoolByName updatePool
  rw [List.find?_map]
  have hp : ((fun p : PoolObj => p.pdef.name == m) ∘
      fun p => if p.pdef.name == n then f p else p) =
      (fun p : PoolObj => p.pdef.name == m) := by
    funext p
    by_cases h : p.pdef.name = n <;> simp [h, hf]
  rw [hp]

theorem getPoolByUUID_updatePool (st : DriverState) (n : String) (f : PoolObj → PoolObj)
    (hf : ∀ p, (f p).pdef.uuid = p.pdef.uuid) (u : Nat) :
    getPoolByUUID (updatePool st n f) u =
      (getPoolByUUID st u).map (fun p => if p.pdef.name == n then f p else p) := by
  unfold getPoolByUUID updatePool
  rw [List.find?_map]
  have hp : ((fun p : PoolObj => p.pdef.uuid == u) ∘
      fun p => if p.pdef.name == n then f p else p) =
      (fun p : PoolObj => p.pdef.uuid == u) := by
    funext p
    by_cases h : p.pdef.name = n <;> simp [h, hf]
  rw [hp]

theorem poolJobs_updatePool (st : DriverState) (n : String) (f : PoolObj → PoolObj)
    (hfn : ∀ p, (f p).pdef.name = p.pdef.name)
    (hfj : ∀ p, (f p).asyncjobs = p.asyncjobs) (m : String) :
    poolJobs (updatePool st n f) m = poolJobs st m := by
  unfold poolJobs
  rw [getPoolByName_updatePool st n f hfn m]
  cases getPoolByName st m with
  | none => rfl
  | some p =>
    by_cases h : p.pdef.name = n <;> simp [h, hfj]

theorem poolJobs_updateVolIn (st : DriverState) (n vn : String) (f : VolDef → VolDef)
    (m : String) : poolJobs (updateVolIn st n vn f) m = poolJobs st m :=
  poolJobs_updatePool st n
    (fun q => { q with vols := q.vols.map (fun w => if w.name == vn then f w else w) })
    (fun _ => rfl) (fun _ => rfl) m

theorem poolJobs_pushEvent (st : DriverState) (e : Event) (m : String) :
    poolJobs (pushEvent st e) m = poolJobs st m := rfl

theorem poolJobs_volCreateMeta (st : DriverState) (n : String) (alloc : Nat) (m : String) :
    poolJobs (volCreateMeta st n alloc) m = poolJobs st m := by
  unfold volCreateMeta
  apply poolJobs_updatePool
  · intro p; split <;> rfl
  · intro p; split <;> rfl

theorem poolJobs_deleteInternal_fst (st : DriverState) (n : String) (v : VolDef)
    (caps : Caps) (oc : Oc) (b : Bool) (m : String) :
    poolJobs (storageVolDeleteInternal st n v caps oc b).1 m = poolJobs st m := by
  simp only [storageVolDeleteInternal]
  split
  · rfl
  · split
    · rfl
    · refine (poolJobs_updatePool _ _ _ ?h1 ?h2 m).trans
        (poolJobs_updatePool _ _ _ ?h3 ?h4 m)
      case h1 => intro p; rfl
      case h2 => intro p; rfl
      case h3 => intro p; dsimp only; split <;> rfl
      case h4 => intro p; dsimp only; split <;> rfl

theorem getPoolByName_some_name {st : DriverState} {m : String} {p : PoolObj}
    (hm : getPoolByName st m = some p) : p.pdef.name = m := by
  have hm' : st.pools.find? (fun q => q.pdef.name == m) = some p := hm
  have h2 := List.find?_some hm'
  simp only [beq_iff_eq] at h2
  exact h2

theorem poolJobs_markBuilding (st : DriverState) (n vn m : String) :
    poolJobs (markBuilding st n vn) m =
      if m = n then (poolJobs st m).map (· + 1) else poolJobs st m := by
  unfold poolJobs markBuilding
  rw [getPoolByName_updatePool st n _ ?hf m]
  case hf => intro p; rfl
  cases hm : getPoolByName st m with
  | none => split <;> rfl
  | some p =>
    have hpm' : p.pdef.name = m := getPoolByName_some_name hm
    by_cases h : m = n
    · subst h; simp [hpm']
    · have hne : p.pdef.name ≠ n := by rw [hpm']; exact h
      simp [h, hne]

theorem poolJobs_unmarkBuilding (st : DriverState) (n vn m : String) :
    poolJobs (unmarkBuilding st n vn) m =
      if m = n then (poolJobs st m).map (· - 1) else poolJobs st m := by
  unfold poolJobs unmarkBuilding
  rw [getPoolByName_updatePool st n _ ?hf m]
  case hf => intro p; rfl
  cases hm : getPoolByName st m with
  | none => split <;> rfl
  | some p =>
    have hpm' : p.pdef.name = m := getPoolByName_some_name hm
    by_cases h : m = n
    · subst h; simp [hpm']
    · have hne : p.pdef.name ≠ n := by rw [hpm']; exact h
      simp [h, hne]

theorem poolJobs_markSrcJobs_none (st : DriverState) (m : String) :
    poolJobs (markSrcJobs st none) m = poolJobs st m := rfl

theorem poolJobs_markSrcJobs_some (st : DriverState) (n m : String) :
    poolJobs (markSrcJobs st (some n)) m =
      if m = n then (poolJobs st m).map (· + 1) else poolJobs st m := by
  unfold markSrcJobs poolJobs
  rw [getPoolByName_updatePool st n _ ?hf m]
  case hf => intro p; rfl
  cases hm : getPoolByName st m with
  | none => split <;> rfl
  | some p =>
    have hpm' : p.pdef.name = m := getPoolByName_some_name hm
    by_cases h : m = n
    · subst h; simp [hpm']
    · have hne : p.pdef.name ≠ n := by rw [hpm']; exact h
      simp [h, hne]

theorem poolJobs_unmarkSrcJobs_none (st : DriverState) (m : String) :
    poolJobs (unmarkSrcJobs st none) m = poolJobs st m := rfl

theorem poolJobs_unmarkSrcJobs_some (st : DriverState) (n m : String) :
    poolJobs (unmarkSrcJobs st (some n)) m =
      if m = n then (poolJobs st m).map (· - 1) else poolJobs st m := by
  unfold unmarkSrcJobs poolJobs
  rw [getPoolByName_updatePool st n _ ?hf m]
  case hf => intro p; rfl
  cases hm : getPoolByName st m with
  | none => split <;> rfl
  | some p =>
    have hpm' : p.pdef.name = m := getPoolByName_some_name hm
    by_cases h : m = n
    · subst h; simp [hpm']
    · have hne : p.pdef.name ≠ n := by rw [hpm']; exact h
      simp [h, hne]

theorem poolJobs_markInUse (st : DriverState) (n vn m : String) :
    poolJobs (markInUse st n vn) m = poolJobs st m :=
  poolJobs_updateVolIn st n vn _ m

theorem poolJobs_unmarkInUse (st : DriverState) (n vn m : String) :
    poolJobs (unmarkInUse st n vn) m = poolJobs st m :=
  poolJobs_updateVolIn st n vn _ m

theorem volCreateXMLPre_poolJobs {st : DriverState} {ref : PoolRef}
    {parsed : Option VolDef} {backend : Option Caps} {oc : Oc}
    {st1 : DriverState} {n : String} {v : VolDef} {caps : Caps}
    (h : volCreateXMLPre st ref parsed backend oc = .ok (st1, n, v, caps))
    (m : String) : poolJobs st1 m = poolJobs st m := by
  simp only [volCreateXMLPre] at h
  repeat' split at h
  any_goals exact Except.noConfusion h
  simp only [Except.ok.injEq, Prod.mk.injEq] at h
  obtain ⟨h1, _h2, _h3, _h4⟩ := h
  subst h1
  refine poolJobs_updatePool _ _ _ ?_ ?_ m <;> exact fun _ => rfl

theorem volCreateFromPreCont_poolJobs {st : DriverState} {p : PoolObj}
    {objsrc : Option PoolObj} {parsed : Option VolDef} {vsrc : VolRef}
    {backend : Option Caps} {oc : Oc} {pre : FromPre}
    (h : volCreateFromPreCont st p objsrc parsed vsrc backend oc = .ok pre)
    (m : String) : poolJobs pre.st m = poolJobs st m := by
  simp only [volCreateFromPreCont] at h
  repeat' split at h
  any_goals exact Except.noConfusion h
  all_goals {
    injection h with h
    subst h
    first
    | refine poolJobs_updatePool _ _ _ ?_ ?_ m <;> exact fun _ => rfl
    | refine (poolJobs_updatePool _ _ _ ?_ ?_ m).trans
        (poolJobs_updateVolIn _ _ _ _ m) <;> exact fun _ => rfl }

theorem volCreateXMLFromPre_poolJobs {st : DriverState} {ref : PoolRef}
    {parsed : Option VolDef} {vsrc : VolRef} {backend : Option Caps} {oc : Oc}
    {pre : FromPre}
    (h : volCreateXMLFromPre st ref parsed vsrc backend oc = .ok pre)
    (m : String) : poolJobs pre.st m = poolJobs st m := by
  simp only [volCreateXMLFromPre] at h
  repeat' split at h
  any_goals exact Except.noConfusion h
  all_goals exact volCreateFromPreCont_poolJobs h m

theorem poolJobs_unmark_mark (st : DriverState) (n vn vn2 m : String) :
    poolJobs (unmarkBuilding (markBuilding st n vn) n vn2) m = poolJobs st m := by
  rw [poolJobs_unmarkBuilding, poolJobs_markBuilding]
  by_cases h : m = n
  · simp only [h, if_pos rfl, Option.map_map]
    cases poolJobs st n <;> simp
  · simp [h]

theorem poolJobs_volCreateTail (st : DriverState) (n : String) (v : VolDef)
    (caps : Caps) (oc : Oc) (ro : Option VolUpdate) (m : String) :
    poolJobs (volCreateTail st n v caps oc ro).1 m = poolJobs st m := by
  simp only [volCreateTail]
  split
  · split
    · exact poolJobs_deleteInternal_fst _ _ _ _ _ _ m
    · exact (poolJobs_volCreateMeta _ _ _ m).trans (poolJobs_updateVolIn _ _ _ _ m)
  · exact poolJobs_volCreateMeta _ _ _ m

theorem storageVolCreateXML_poolJobs (st : DriverState) (ref : PoolRef)
    (parsed : Option VolDef) (backend : Option Caps) (oc : Oc) (m : String) :
    poolJobs (storageVolCreateXML st ref parsed backend oc).1 m = poolJobs st m := by
  simp only [storageVolCreateXML]
  cases hp : volCreateXMLPre st ref parsed backend oc with
  | error e => rfl
  | ok out =>
    obtain ⟨st1, n, v, caps⟩ := out
    have hpre := volCreateXMLPre_poolJobs hp m
    dsimp only
    split
    · split
      · refine Eq.trans (poolJobs_updatePool _ _ _ ?_ ?_ m)
          ((poolJobs_unmark_mark st1 n v.name v.name m).trans hpre) <;>
          exact fun _ => rfl
      · exact (poolJobs_volCreateTail _ _ _ _ _ _ m).trans
          ((poolJobs_unmark_mark st1 n v.name v.name m).trans hpre)
    · exact (poolJobs_volCreateTail _ _ _ _ _ _ m).trans hpre

theorem poolJobs_fromWindow_cancel (st : DriverState) (d vn sp sv : String)
    (sd : Option String) (m : String) :
    poolJobs (unmarkSrcJobs (unmarkBuilding (unmarkInUse
        (markSrcJobs (markInUse (markBuilding st d vn) sp sv) sd) sp sv) d vn) sd) m
      = poolJobs st m := by
  cases sd with
  | none =>
    rw [poolJobs_unmarkSrcJobs_none, poolJobs_unmarkBuilding, poolJobs_unmarkInUse,
        poolJobs_markSrcJobs_none, poolJobs_markInUse, poolJobs_markBuilding]
    by_cases h : m = d
    · simp only [h, if_pos rfl, Option.map_map]
      cases poolJobs st d <;> simp
    · simp [h]
  | some s =>
    rw [poolJobs_unmarkSrcJobs_some, poolJobs_unmarkBuilding, poolJobs_unmarkInUse,
        poolJobs_markSrcJobs_some, poolJobs_markInUse, poolJobs_markBuilding]
    split_ifs <;> (cases poolJobs st m <;> simp_all)

theorem storageVolCreateXMLFrom_poolJobs (st : DriverState) (ref : PoolRef)
    (parsed : Option VolDef) (vsrc : VolRef) (backend : Option Caps) (oc : Oc)
    (m : String) :
    poolJobs (storageVolCreateXMLFrom st ref parsed vsrc backend oc).1 m =
      poolJobs st m := by
  simp only [storageVolCreateXMLFrom]
  cases hp : volCreateXMLFromPre st ref parsed vsrc backend oc with
  | error e => rfl
  | ok pre =>
    have hpre := volCreateXMLFromPre_poolJobs hp m
    dsimp only
    split
    · exact (poolJobs_deleteInternal_fst _ _ _ _ _ _ m).trans
        ((poolJobs_fromWindow_cancel _ _ _ _ _ _ m).trans hpre)
    · split
      · split
        · exact (poolJobs_volCreateMeta _ _ _ m).trans
            ((poolJobs_updateVolIn _ _ _ _ m).trans
              ((poolJobs_fromWindow_cancel _ _ _ _ _ _ m).trans hpre))
        · exact (poolJobs_volCreateMeta _ _ _ m).trans
            ((poolJobs_fromWindow_cancel _ _ _ _ _ _ m).trans hpre)
      · exact (poolJobs_volCreateMeta _ _ _ m).trans
          ((poolJobs_fromWindow_cancel _ _ _ _ _ _ m).trans hpre)

theorem volCreateBuildWindow_jobs {st : DriverState} {ref : PoolRef}
    {parsed : Option VolDef} {backend : Option Caps} {oc : Oc}
    {n : String} {stMid : DriverState}
    (h : volCreateBuildWindow st ref parsed backend oc = some (n, stMid)) :
    poolJobs stMid n = (poolJobs st n).map (· + 1) := by
  simp only [volCreateBuildWindow] at h
  split at h
  · exact Option.noConfusion h
  · rename_i st1 n' v caps hp
    split at h
    · injection h with h
      injection h with h1 h2
      subst h1; subst h2
      rw [poolJobs_markBuilding]
      simp [volCreateXMLPre_poolJobs hp]
    · exact Option.noConfusion h

theorem volCreateFromBuildWindow_jobs {st : DriverState} {ref : PoolRef}
    {parsed : Option VolDef} {vsrc : VolRef} {backend : Option Caps} {oc : Oc}
    {d : String} {sd : Option String} {stMid : DriverState}
    (h : volCreateFromBuildWindow st ref parsed vsrc backend oc = some (d, sd, stMid))
    (hne : sd ≠ some d) :
    poolJobs stMid d = (poolJobs st d).map (· + 1) ∧
      (∀ s, sd = some s → poolJobs stMid s = (poolJobs st s).map (· + 1)) := by
  simp only [volCreateFromBuildWindow] at h
  split at h
  · exact Option.noConfusion h
  · rename_i pre hp
    injection h with h
    injection h with h1 h
    injection h with h2 h3
    subst h1; subst h2; subst h3
    constructor
    · cases hsd : pre.srcDistinct with
      | none =>
        rw [poolJobs_markSrcJobs_none, poolJobs_markInUse, poolJobs_markBuilding]
        simp [volCreateXMLFromPre_poolJobs hp]
      | some s =>
        have hds : ¬ pre.destName = s := by
          intro he; exact hne (by rw [hsd, he])
        rw [poolJobs_markSrcJobs_some, poolJobs_markInUse, poolJobs_markBuilding]
        simp [hds, volCreateXMLFromPre_poolJobs hp]
    · intro s hs
      have hds : ¬ s = pre.destName := by
        intro he; exact hne (by rw [hs, he])
      rw [hs, poolJobs_markSrcJobs_some, poolJobs_markInUse, poolJobs_markBuilding]
      simp [hds, volCreateXMLFromPre_poolJobs hp]

/-- A backend with every entry point present. -/
def capsAll : Caps :=
  ⟨true, true, true, true, true, true, true, true, true, true, true, true, true, true⟩

/-- A backend whose capability table has no `buildVol` entry point. -/
def capsNoBuildVol : Caps := { capsAll with hasBuildVol := false }

/-- Oracle on which every external call succeeds. -/
def ocGood : Oc where
  acl := true
  sourceDup := false
  buildPool := true
  startPool := true
  stopPool := true
  saveState := true
  saveDef := true
  rpOk := true
  rpVols := []
  ploopRestore := true
  createVolKey := some "key1"
  buildVol := true
  buildVolFrom := true
  deleteVol := true
  resizeVol := true
  wipeVol := true
  wipeUpdRet := 0
  wipeUpd := ⟨0, 0, 0⟩
  refreshVolA := some ⟨100, 50, 50⟩
  refreshVolB := some ⟨100, 50, 50⟩

/-- Oracle on which the backend pool refresh fails. -/
def ocRpFail : Oc := { ocGood with rpOk := false }

/-- A test volume: capacity 100, allocation 50, not building, not in use. -/
def tVol : VolDef := ⟨"v1", some "k1", ⟨100, 50, true, 50, "/data/p1/v1"⟩, false, 0⟩

/-- A directory-type pool definition. -/
def dirDef : PoolDef := ⟨"p1", 7, .dir, 1000, 500, 400, "/data/p1"⟩

/-- A disk-type pool definition. -/
def diskDef : PoolDef := ⟨"pd", 9, .disk, 1000, 500, 400, "/dev/sda"⟩

/-- An active persistent directory pool holding the test volume. -/
def dirPool : PoolObj := ⟨dirDef, none, true, false, some "p1", 0, [tVol]⟩

/-- An active persistent disk pool holding the test volume. -/
def diskPool : PoolObj := ⟨diskDef, none, true, false, some "pd", 0, [tVol]⟩

/-- A test driver state with one directory pool and one disk pool, both
active with state files. -/
def st0 : DriverState := ⟨[dirPool, diskPool], ["p1", "pd"], ["p1", "pd"], []⟩

/-- C9: `storageVolWipe` is extensionally equal to `storageVolWipePattern`
with the zero algorithm: for every driver state, volume reference, flags
value, backend and outcome oracle they return the same result and the same
state. -/
theorem volWipe_is_wipePattern_zero :
    ∀ (st : DriverState) (vref : VolRef) (flags : Nat) (backend : Option Caps) (oc : Oc),
      storageVolWipe st vref flags backend oc =
        storageVolWipePattern st vref ALG_ZERO flags backend oc :=
  fun _ _ _ _ _ => rfl

/-- C10: with both the delta and the shrink flags set, the absolute target
capacity of a resize is the current capacity minus
`min(request, current capacity)`: it equals that clamped difference, never
exceeds the current capacity (so it cannot wrap around), and is exactly
zero whenever the requested delta is the current capacity plus any
excess. -/
theorem resize_shrink_delta_clamped :
    ∀ (a : Bool) (req cap k : Nat),
      resizeAbsCapacity ⟨a, true, true⟩ req cap = cap - min req cap ∧
      resizeAbsCapacity ⟨a, true, true⟩ req cap ≤ cap ∧
      resizeAbsCapacity ⟨a, true, true⟩ (cap + k) cap = 0 := by
  intro a req cap k
  refine ⟨rfl, ?_, ?_⟩
  · simp only [resizeAbsCapacity, if_true]
    omega
  · simp only [resizeAbsCapacity, if_true]
    omega

/-- C5: destroying a pool whose `asyncjobs` counter is positive fails with
the async-jobs error — a member of the specification's invalid-state class
("operation forbidden by current state"), reported by the source under
`VIR_ERR_INTERNAL_ERROR` — and the call leaves the driver state (the pool
still active, still registered, fully unchanged) intact. -/
theorem poolDestroy_with_async_jobs_fails (st : DriverState) (ref : PoolRef)
    (caps : Caps) (oc : Oc) (p : PoolObj)
    (hfind : getPoolByUUID st ref.uuid = some p)
    (hacl : oc.acl = true)
    (hact : p.isActive = true)
    (hjobs : 0 < p.asyncjobs) :
    storagePoolDestroy st ref (some caps) oc = (st, .error .asyncJobsRunning) ∧
      Err.invalidStateClass .asyncJobsRunning = true ∧
      Err.code .asyncJobsRunning = .internalError := by
  refine ⟨?_, rfl, rfl⟩
  simp only [storagePoolDestroy, hfind, hacl, hact]
  simp [hjobs]

/-- Witness for C5: a concrete active pool with one async job refuses
destroy and is left unchanged. -/
theorem poolDestroy_with_async_jobs_fails_witness :
    storagePoolDestroy ⟨[{ dirPool with asyncjobs := 1 }], ["p1"], ["p1"], []⟩
        ⟨"p1", 7⟩ (some capsAll) ocGood =
      (⟨[{ dirPool with asyncjobs := 1 }], ["p1"], ["p1"], []⟩,
        .error .asyncJobsRunning) ∧
      Err.invalidStateClass .asyncJobsRunning = true ∧
      Err.code .asyncJobsRunning = .internalError :=
  poolDestroy_with_async_jobs_fails _ _ capsAll ocGood { dirPool with asyncjobs := 1 }
    (by decide) (by decide) (by decide) (by decide)

/-- C7: volume creation on an active pool whose backend has no `buildVol`
entry point, from a definition with capacity zero (omitted), fails with the
capacity-required error (reported under `VIR_ERR_NO_SUPPORT`) before any
mutation: for every outcome oracle the state is returned unchanged — no
backend entry point outcome is even consulted — and no volume is
registered. -/
theorem volCreateXML_capacity_required_no_mutation (st : DriverState)
    (ref : PoolRef) (caps : Caps) (v : VolDef) (p : PoolObj)
    (hfind : getPoolByUUID st ref.uuid = some p)
    (hact : p.isActive = true)
    (hbuild : caps.hasBuildVol = false)
    (hcap : v.target.capacity = 0) :
    ∀ oc : Oc, storageVolCreateXML st ref (some v) (some caps) oc =
      (st, .error .capacityRequired) := by
  intro oc
  have hpre : volCreateXMLPre st ref (some v) (some caps) oc =
      .error .capacityRequired := by
    simp only [volCreateXMLPre, hfind, hact]
    simp [hcap, hbuild]
  simp only [storageVolCreateXML, hpre]

/-- Witness for C7: a concrete zero-capacity volume definition on an active
pool with a build-less backend fails with the capacity-required error and
no state change. -/
theorem volCreateXML_capacity_required_no_mutation_witness :
    storageVolCreateXML st0 ⟨"p1", 7⟩
        (some ⟨"v2", none, ⟨0, 0, false, 0, ""⟩, false, 0⟩)
        (some capsNoBuildVol) ocGood =
      (st0, .error .capacityRequired) :=
  volCreateXML_capacity_required_no_mutation st0 ⟨"p1", 7⟩ capsNoBuildVol
    ⟨"v2", none, ⟨0, 0, false, 0, ""⟩, false, 0⟩ dirPool
    (by decide) (by decide) (by decide) (by decide) ocGood

/-- C8: the background refresh spawned by an upload-stream close: when the
pool has an async build in flight it skips silently — the driver state
(volume collection, flags, event queue) is returned fully unchanged and
nothing is propagated; when no job is in flight it replaces the pool's
volumes with whatever the backend rescan left and queues a "refreshed"
event — identically for backend-refresh success and failure (the oracle is
arbitrary; a failure is only logged, and the thread has no error result to
propagate). -/
theorem uploadRefreshThread_skip_and_refresh (st : DriverState)
    (cbdata : StreamCbData) (caps : Caps) (oc : Oc) (p : PoolObj)
    (hploop : cbdata.vol_path = none)
    (hfind : getPoolByName st cbdata.pool_name = some p) :
    (0 < p.asyncjobs →
      virStorageVolPoolRefreshThread st cbdata (some caps) oc = st) ∧
    (p.asyncjobs = 0 →
      virStorageVolPoolRefreshThread st cbdata (some caps) oc =
        pushEvent
          (updatePool st p.pdef.name (fun q => { q with vols := oc.rpVols }))
          ⟨p.pdef.name, p.pdef.uuid, .refreshed⟩) := by
  constructor
  · intro hj
    simp only [virStorageVolPoolRefreshThread, hploop, hfind]
    simp [hj]
  · intro hj
    simp only [virStorageVolPoolRefreshThread, hploop, hfind]
    simp [hj]

/-- Witness for C8: the concrete two-pool state, with a failing backend
refresh, still rescans and queues the refreshed event. -/
theorem uploadRefreshThread_skip_and_refresh_witness :
    (0 < dirPool.asyncjobs →
      virStorageVolPoolRefreshThread st0 ⟨"p1", none⟩ (some capsAll) ocRpFail = st0) ∧
    (dirPool.asyncjobs = 0 →
      virStorageVolPoolRefreshThread st0 ⟨"p1", none⟩ (some capsAll) ocRpFail =
        pushEvent
          (updatePool st0 dirPool.pdef.name (fun q => { q with vols := ocRpFail.rpVols }))
          ⟨dirPool.pdef.name, dirPool.pdef.uuid, .refreshed⟩) :=
  uploadRefreshThread_skip_and_refresh st0 ⟨"p1", none⟩ capsAll ocRpFail dirPool
    rfl (by decide)

theorem volDefFromVol_inv {st : DriverState} {vref : VolRef}
    {backend : Option Caps} {p : PoolObj} {v : VolDef} {caps : Caps}
    (h : volDefFromVol st vref backend = .ok (p, v, caps)) :
    getPoolByName st vref.pool = some p ∧ p.isActive = true ∧
      volFind p vref.name = some v ∧ backend = some caps := by
  unfold volDefFromVol at h
  cases hp0 : getPoolByName st vref.pool with
  | none => rw [hp0] at h; simp at h
  | some p0 =>
    rw [hp0] at h
    dsimp only at h
    cases hact : p0.isActive with
    | false => rw [hact] at h; simp at h
    | true =>
      rw [hact] at h
      rw [if_neg (by simp)] at h
      cases hv0 : volFind p0 vref.name with
      | none => rw [hv0] at h; simp at h
      | some v0 =>
        rw [hv0] at h
        dsimp only at h
        cases backend with
        | none => simp at h
        | some caps0 =>
          dsimp only at h
          simp only [Except.ok.injEq, Prod.mk.injEq] at h
          obtain ⟨h1, h2, h3⟩ := h
          subst h1; subst h2; subst h3
          exact ⟨rfl, hact, hv0, rfl⟩

theorem add64_eq_of_lt {a b : Nat} (h : a + b < W64) : add64 a b = a + b :=
  Nat.mod_eq_of_lt h

theorem sub64_eq_of_le {a b : Nat} (hb : b ≤ a) (ha : a < W64) : sub64 a b = a - b := by
  unfold sub64 W64
  unfold W64 at ha
  omega

theorem volFind_map (p : PoolObj) (g : VolDef → VolDef)
    (hg : ∀ w, (g w).name = w.name) (m : String) :
    volFind { p with vols := p.vols.map g } m = (volFind p m).map g := by
  unfold volFind
  dsimp only
  rw [List.find?_map]
  have hp : ((fun w : VolDef => w.name == m) ∘ g) = (fun w : VolDef => w.name == m) := by
    funext w
    simp [hg]
  rw [hp]

theorem getPoolByName_updateVolIn (st : DriverState) (n vn : String)
    (f : VolDef → VolDef) (m : String) :
    getPoolByName (updateVolIn st n vn f) m =
      (getPoolByName st m).map (fun p => if p.pdef.name == n then
        { p with vols := p.vols.map (fun w => if w.name == vn then f w else w) }
      else p) := by
  unfold updateVolIn
  refine getPoolByName_updatePool st n _ ?_ m
  intro q
  rfl

/-- C4: volume resize.  With the volume resolved (pool active, volume not
in use and not building, ACL granted): (a) an absolute target capacity —
after delta conversion — below the volume's current allocation fails with
the shrink-below-allocation error and no state change, for every flags
value; (b) a target below the current capacity without the shrink flag
fails with no state change; (c) a permitted resize with the allocate flag
whose allocation delta fits into the pool's available space (and whose
counters do not overflow 2^64), on a backend that supports resize and
succeeds, returns success, sets the volume's capacity and allocation to
the new absolute capacity, and adjusts the pool's allocation and available
counters by exactly the delta. -/
theorem volResize_checks_and_success (st : DriverState) (vref : VolRef)
    (cap : Nat) (fl : ResizeFlags) (backend : Option Caps) (oc : Oc)
    (p : PoolObj) (v : VolDef) (caps : Caps)
    (hres : volDefFromVol st vref backend = .ok (p, v, caps))
    (hacl : oc.acl = true)
    (hinuse : v.in_use = 0)
    (hbuilding : v.building = false) :
    (resizeAbsCapacity fl cap v.target.capacity < v.target.allocation →
      storageVolResize st vref cap fl backend oc = (st, .error .shrinkBelowAllocation)) ∧
    (resizeAbsCapacity fl cap v.target.capacity < v.target.capacity →
     fl.shrink = false →
      ∃ e, storageVolResize st vref cap fl backend oc = (st, .error e)) ∧
    (v.target.allocation ≤ resizeAbsCapacity fl cap v.target.capacity →
     (v.target.capacity ≤ resizeAbsCapacity fl cap v.target.capacity ∨ fl.shrink = true) →
     fl.allocate = true →
     resizeAbsCapacity fl cap v.target.capacity - v.target.allocation ≤ p.pdef.available →
     p.pdef.allocation +
       (resizeAbsCapacity fl cap v.target.capacity - v.target.allocation) < W64 →
     p.pdef.available < W64 →
     caps.hasResizeVol = true → oc.resizeVol = true →
      ∃ p' v',
        (storageVolResize st vref cap fl backend oc).2 = .ok () ∧
        getPoolByName (storageVolResize st vref cap fl backend oc).1 vref.pool =
          some p' ∧
        volFind p' vref.name = some v' ∧
        v'.target.capacity = resizeAbsCapacity fl cap v.target.capacity ∧
        v'.target.allocation = resizeAbsCapacity fl cap v.target.capacity ∧
        p'.pdef.allocation = p.pdef.allocation +
          (resizeAbsCapacity fl cap v.target.capacity - v.target.allocation) ∧
        p'.pdef.available = p.pdef.available -
          (resizeAbsCapacity fl cap v.target.capacity - v.target.allocation)) := by
  obtain ⟨hfind, hact, hvol, hback⟩ := volDefFromVol_inv hres
  refine ⟨?_, ?_, ?_⟩
  · intro habs
    simp [storageVolResize, hres, hacl, hinuse, hbuilding, habs]
  · intro habs hshr
    by_cases h1 : resizeAbsCapacity fl cap v.target.capacity < v.target.allocation
    · exact ⟨.shrinkBelowAllocation, by
        simp [storageVolResize, hres, hacl, hinuse, hbuilding, h1]⟩
    · exact ⟨.shrinkNeedsFlag, by
        simp [storageVolResize, hres, hacl, hinuse, hbuilding, h1, habs, hshr]⟩
  · intro hge hperm hall hdelta hovf hwav hsup hok
    have h1 : ¬ (resizeAbsCapacity fl cap v.target.capacity < v.target.allocation) :=
      not_lt.mpr hge
    have h2 : ¬ (resizeAbsCapacity fl cap v.target.capacity < v.target.capacity ∧
        fl.shrink = false) := by
      rintro ⟨hc, hs⟩
      rcases hperm with hc2 | hs2
      · exact absurd hc (not_lt.mpr hc2)
      · rw [hs2] at hs; exact Bool.noConfusion hs
    have hname : p.pdef.name = vref.pool := getPoolByName_some_name hfind
    have hvname : v.name = vref.name := by
      have hv' : p.vols.find? (fun w => w.name == vref.name) = some v := hvol
      have h2 := List.find?_some hv'
      simp only [beq_iff_eq] at h2
      exact h2
    have hB : (decide (resizeAbsCapacity fl cap v.target.capacity <
        v.target.capacity) && !fl.shrink) = false := by
      rcases hperm with hc2 | hs2
      · simp [not_lt.mpr hc2]
      · simp [hs2]
    have h6 : ¬ (p.pdef.available <
        resizeAbsCapacity fl cap v.target.capacity - v.target.allocation) :=
      not_lt.mpr hdelta
    simp only [storageVolResize, hres]
    simp [hacl, hinuse, hbuilding, hall, h1, hB, h6, hsup, hok]
    rw [getPoolByName_updatePool _ _ _ ?hq _, getPoolByName_updateVolIn, hfind]
    case hq => intro q; rfl
    simp only [Option.map_some', beq_self_eq_true, if_pos]
    refine ⟨_, rfl, ?_⟩
    unfold volFind
    dsimp only
    rw [List.find?_map]
    have hpred : ((fun w : VolDef => w.name == vref.name) ∘
        (fun w : VolDef => if w.name == v.name then
          { w with target := { w.target with
              capacity := resizeAbsCapacity fl cap v.target.capacity
              allocation := resizeAbsCapacity fl cap v.target.capacity } }
        else w)) = (fun w : VolDef => w.name == vref.name) := by
      funext w
      by_cases hw : w.name = v.name <;> simp [hw]
    rw [hpred]
    have hvol' : p.vols.find? (fun w => w.name == vref.name) = some v := hvol
    rw [hvol']
    simp only [Option.map_some', beq_self_eq_true, if_pos]
    refine ⟨_, rfl, rfl, rfl, ?_, ?_⟩
    · exact add64_eq_of_lt hovf
    · exact sub64_eq_of_le hdelta hwav

/-- Witness for C4: growing the 100/50 volume to capacity 80 — wait, 80 is
a shrink with the shrink flag — with allocation requested, on the test
directory pool (alloc 500, avail 400), succeeds and yields volume 80/80
and pool counters 530/370. -/
theorem volResize_checks_and_success_witness :
    ∃ p' v',
      (storageVolResize st0 ⟨"p1", "v1"⟩ 80 ⟨true, false, true⟩
        (some capsAll) ocGood).2 = .ok () ∧
      getPoolByName (storageVolResize st0 ⟨"p1", "v1"⟩ 80 ⟨true, false, true⟩
        (some capsAll) ocGood).1 "p1" = some p' ∧
      volFind p' "v1" = some v' ∧
      v'.target.capacity = 80 ∧
      v'.target.allocation = 80 ∧
      p'.pdef.allocation = 530 ∧
      p'.pdef.available = 370 :=
  (volResize_checks_and_success st0 ⟨"p1", "v1"⟩ 80 ⟨true, false, true⟩
      (some capsAll) ocGood dirPool tVol capsAll rfl rfl rfl rfl).2.2
    (by decide) (Or.inr rfl) rfl (by decide) (by decide) (by decide) rfl rfl

theorem volResize_counters {st st' : DriverState} {vref : VolRef} {cap : Nat}
    {fl : ResizeFlags} {backend : Option Caps} {oc : Oc} {u : Unit}
    {p : PoolObj} {v : VolDef} {caps : Caps}
    (h : storageVolResize st vref cap fl backend oc = (st', .ok u))
    (hres : volDefFromVol st vref backend = .ok (p, v, caps)) :
    ∃ p', getPoolByName st' vref.pool = some p' ∧
      (fl.allocate = true →
        p'.pdef.allocation = add64 p.pdef.allocation
          (resizeAbsCapacity fl cap v.target.capacity - v.target.allocation) ∧
        p'.pdef.available = sub64 p.pdef.available
          (resizeAbsCapacity fl cap v.target.capacity - v.target.allocation)) ∧
      (fl.allocate = false →
        p'.pdef.allocation = p.pdef.allocation ∧
        p'.pdef.available = p.pdef.available) := by
  obtain ⟨hfind, hact, hvol, hback⟩ := volDefFromVol_inv hres
  unfold storageVolResize at h
  rw [hres] at h
  obtain ⟨fa, fd, fs⟩ := fl
  cases fa
  · -- allocate flag not set: the pool counters are untouched
    simp only [Bool.false_eq_true, if_false, eq_self_iff_true, if_true] at h
    repeat' split at h
    any_goals exact Except.noConfusion (congrArg Prod.snd h)
    have h1 : _ = st' := congrArg Prod.fst h
    subst h1
    dsimp only
    rw [getPoolByName_updateVolIn, hfind]
    simp only [Option.map_some', beq_self_eq_true, if_pos]
    refine ⟨_, rfl, ?_, ?_⟩
    · intro hf; exact Bool.noConfusion hf
    · intro _; exact ⟨rfl, rfl⟩
  · -- allocate flag set: both volume and pool counters are updated
    simp only [Bool.false_eq_true, if_false, eq_self_iff_true, if_true] at h
    repeat' split at h
    any_goals exact Except.noConfusion (congrArg Prod.snd h)
    have h1 : _ = st' := congrArg Prod.fst h
    subst h1
    dsimp only
    rw [getPoolByName_updatePool _ _ _ ?hq _, getPoolByName_updateVolIn, hfind]
    case hq => intro q; rfl
    simp only [Option.map_some', beq_self_eq_true, if_pos]
    refine ⟨_, rfl, ?_, ?_⟩
    · intro _; exact ⟨rfl, rfl⟩
    · intro hf; exact Bool.noConfusion hf

theorem volDelete_counters {st st' : DriverState} {vref : VolRef}
    {backend : Option Caps} {oc : Oc} {u : Unit}
    {p : PoolObj} {v : VolDef} {caps : Caps}
    (h : storageVolDelete st vref backend oc = (st', .ok u))
    (hres : volDefFromVol st vref backend = .ok (p, v, caps)) :
    ∃ p', getPoolByName st' vref.pool = some p' ∧
      (p.pdef.ptype ≠ .disk →
        p'.pdef.allocation = sub64 p.pdef.allocation v.target.allocation ∧
        p'.pdef.available = add64 p.pdef.available v.target.allocation) ∧
      (p.pdef.ptype = .disk →
        p'.pdef.allocation = p.pdef.allocation ∧
        p'.pdef.available = p.pdef.available) := by
  obtain ⟨hfind, hact, hvol, hback⟩ := volDefFromVol_inv hres
  unfold storageVolDelete at h
  rw [hres] at h
  dsimp only at h
  unfold storageVolDeleteInternal at h
  dsimp only at h
  repeat' split at h
  any_goals exact Except.noConfusion (congrArg Prod.snd h)
  have h1 := congrArg Prod.fst h
  dsimp only at h1
  rw [← h1]
  rw [getPoolByName_updatePool _ _ _ ?hq1 _, getPoolByName_updatePool _ _ _ ?hq2 _,
      hfind]
  case hq1 => intro q; rfl
  case hq2 => intro q; dsimp only; split <;> rfl
  simp only [Option.map_some']
  by_cases hdisk : p.pdef.ptype = PoolType.disk
  · refine ⟨_, rfl, ?_, ?_⟩
    · intro hd; exact absurd hdisk hd
    · intro _
      constructor <;> simp [hdisk]
  · refine ⟨_, rfl, ?_, ?_⟩
    · intro _
      constructor <;> simp [hdisk]
    · intro hd; exact absurd hd hdisk

theorem find?_name_map (L : List VolDef) (g : VolDef → VolDef)
    (hg : ∀ w, (g w).name = w.name) (m : String) :
    (L.map g).find? (fun w => w.name == m) =
      (L.find? (fun w => w.name == m)).map g := by
  rw [List.find?_map]
  have hp : ((fun w : VolDef => w.name == m) ∘ g) =
      (fun w : VolDef => w.name == m) := by
    funext w
    simp [hg]
  rw [hp]

theorem find?_name_append_self (L : List VolDef) (v : VolDef)
    (h : L.find? (fun w => w.name == v.name) = none) :
    (L ++ [v]).find? (fun w => w.name == v.name) = some v := by
  rw [List.find?_append, h]
  simp [List.find?]

theorem volCreateXMLPre_inv {st : DriverState} {ref : PoolRef}
    {parsed : Option VolDef} {backend : Option Caps} {oc : Oc}
    {st1 : DriverState} {n : String} {v : VolDef} {caps : Caps}
    (h : volCreateXMLPre st ref parsed backend oc = .ok (st1, n, v, caps)) :
    ∃ p, getPoolByUUID st ref.uuid = some p ∧ p.isActive = true ∧
      backend = some caps ∧ n = p.pdef.name ∧ volFind p v.name = none ∧
      st1 = updatePool st p.pdef.name
        (fun q => { q with vols := q.vols ++ [v] }) := by
  unfold volCreateXMLPre at h
  cases hp0 : getPoolByUUID st ref.uuid with
  | none => rw [hp0] at h; exact Except.noConfusion h
  | some p0 =>
    rw [hp0] at h
    dsimp only at h
    cases hact : p0.isActive with
    | false => rw [hact] at h; exact Except.noConfusion h
    | true =>
      rw [hact] at h
      rw [if_neg (by simp)] at h
      cases backend with
      | none => exact Except.noConfusion h
      | some caps0 =>
        dsimp only at h
        cases parsed with
        | none => exact Except.noConfusion h
        | some v0 =>
          dsimp only at h
          split at h
          · exact Except.noConfusion h
          split at h
          · exact Except.noConfusion h
          split at h
          · exact Except.noConfusion h
          rename_i hnodup
          split at h
          · exact Except.noConfusion h
          split at h
          · exact Except.noConfusion h
          injection h with h
          injection h with h1 h
          injection h with h2 h
          injection h with h3 h4
          subst h1; subst h2; subst h3; subst h4
          exact ⟨p0, rfl, hact, rfl, rfl, by simpa using hnodup, rfl⟩

theorem getPoolByUUID_updateVolIn (st : DriverState) (n vn : String)
    (f : VolDef → VolDef) (u : Nat) :
    getPoolByUUID (updateVolIn st n vn f) u =
      (getPoolByUUID st u).map (fun p => if p.pdef.name == n then
        { p with vols := p.vols.map (fun w => if w.name == vn then f w else w) }
      else p) := by
  unfold updateVolIn
  refine getPoolByUUID_updatePool st n _ ?_ u
  intro q
  rfl

theorem volCreateTail_counters {stX st' : DriverState} {n : String} {v : VolDef}
    {caps : Caps} {oc : Oc} {ro : Option VolUpdate} {r : VolRef} {uid : Nat}
    {pX : PoolObj} {vX : VolDef}
    (h : volCreateTail stX n v caps oc ro = (st', .ok r))
    (hx : getPoolByUUID stX uid = some pX)
    (hnm : pX.pdef.name = n)
    (hvx : volFind pX v.name = some vX)
    (hal : vX.target.allocation = v.target.allocation) :
    ∃ p' v', getPoolByUUID st' uid = some p' ∧ volFind p' v.name = some v' ∧
      r.name = v.name ∧
      (pX.pdef.ptype ≠ PoolType.disk →
        p'.pdef.allocation = add64 pX.pdef.allocation v'.target.allocation ∧
        p'.pdef.available = sub64 pX.pdef.available v'.target.allocation) ∧
      (pX.pdef.ptype = PoolType.disk →
        p'.pdef.allocation = pX.pdef.allocation ∧
        p'.pdef.available = pX.pdef.available) := by
  have hvxn : vX.name = v.name := by
    have hv' : pX.vols.find? (fun w => w.name == v.name) = some vX := hvx
    have h2 := List.find?_some hv'
    simp only [beq_iff_eq] at h2
    exact h2
  have hb : (pX.pdef.name == n) = true := by simp [hnm]
  unfold volCreateTail at h
  split at h
  · split at h
    · exact Except.noConfusion (congrArg Prod.snd h)
    · rename_i u
      have hr := congrArg Prod.snd h
      dsimp only at hr
      injection hr with hr
      have h1 := congrArg Prod.fst h
      dsimp only at h1
      rw [← h1, ← hr]
      dsimp only
      unfold volCreateMeta
      rw [getPoolByUUID_updatePool _ _ _ ?hm _, getPoolByUUID_updateVolIn, hx]
      case hm => intro q; dsimp only; split <;> rfl
      simp only [Option.map_some', hb, if_true]
      by_cases hdisk : pX.pdef.ptype = PoolType.disk
      · rw [if_neg (by simp [hdisk])]
        refine ⟨_, applyUpd vX u, rfl, ?_, trivial, ?_, ?_⟩
        · unfold volFind
          dsimp only
          rw [find?_name_map _ _ ?hpn _]
          case hpn => intro w; dsimp only; split <;> rfl
          have hvx' : pX.vols.find? (fun w => w.name == v.name) = some vX := hvx
          rw [hvx']
          simp [hvxn]
        · intro hd; exact absurd hdisk hd
        · intro _; exact ⟨rfl, rfl⟩
      · rw [if_pos (by simp [hdisk])]
        refine ⟨_, applyUpd vX u, rfl, ?_, trivial, ?_, ?_⟩
        · unfold volFind
          dsimp only
          rw [find?_name_map _ _ ?hpn2 _]
          case hpn2 => intro w; dsimp only; split <;> rfl
          have hvx' : pX.vols.find? (fun w => w.name == v.name) = some vX := hvx
          rw [hvx']
          simp [hvxn]
        · intro _; exact ⟨rfl, rfl⟩
        · intro hd; exact absurd hd hdisk
  · -- no refreshVol entry point: the registered volume itself is used
    have hr := congrArg Prod.snd h
    dsimp only at hr
    injection hr with hr
    have h1 := congrArg Prod.fst h
    dsimp only at h1
    rw [← h1, ← hr]
    dsimp only
    unfold volCreateMeta
    rw [getPoolByUUID_updatePool _ _ _ ?hm2 _, hx]
    case hm2 => intro q; dsimp only; split <;> rfl
    simp only [Option.map_some', hb, if_true]
    by_cases hdisk : pX.pdef.ptype = PoolType.disk
    · rw [if_neg (by simp [hdisk])]
      refine ⟨_, vX, rfl, hvx, trivial, ?_, ?_⟩
      · intro hd; exact absurd hdisk hd
      · intro _; exact ⟨rfl, rfl⟩
    · rw [if_pos (by simp [hdisk])]
      refine ⟨_, vX, rfl, hvx, trivial, ?_, ?_⟩
      · intro _
        rw [hal]
        exact ⟨rfl, rfl⟩
      · intro hd; exact absurd hd hdisk

theorem volCreateXML_counters {st st' : DriverState} {ref : PoolRef}
    {parsed : Option VolDef} {backend : Option Caps} {oc : Oc} {r : VolRef}
    {p : PoolObj}
    (h : storageVolCreateXML st ref parsed backend oc = (st', .ok r))
    (hp : getPoolByUUID st ref.uuid = some p) :
    ∃ p' v', getPoolByUUID st' ref.uuid = some p' ∧ volFind p' r.name = some v' ∧
      (p.pdef.ptype ≠ PoolType.disk →
        p'.pdef.allocation = add64 p.pdef.allocation v'.target.allocation ∧
        p'.pdef.available = sub64 p.pdef.available v'.target.allocation) ∧
      (p.pdef.ptype = PoolType.disk →
        p'.pdef.allocation = p.pdef.allocation ∧
        p'.pdef.available = p.pdef.available) := by
  unfold storageVolCreateXML at h
  cases hpre : volCreateXMLPre st ref parsed backend oc with
  | error e =>
    rw [hpre] at h
    exact Except.noConfusion (congrArg Prod.snd h)
  | ok out =>
    obtain ⟨st1, n, v, caps⟩ := out
    rw [hpre] at h
    dsimp only at h
    obtain ⟨p0, hp0, hact, hb, hn, hvnone, hst1⟩ := volCreateXMLPre_inv hpre
    rw [hp0] at hp
    injection hp with hp
    subst hp
    subst hn
    have hvnone' : p0.vols.find? (fun w => w.name == v.name) = none := hvnone
    have hx1 : getPoolByUUID st1 ref.uuid =
        some { p0 with vols := p0.vols ++ [v] } := by
      rw [hst1, getPoolByUUID_updatePool _ _ _ ?hq _, hp0]
      case hq => intro q; rfl
      simp
    have hv1 : volFind { p0 with vols := p0.vols ++ [v] } v.name = some v := by
      unfold volFind
      dsimp only
      exact find?_name_append_self _ _ hvnone'
    split at h
    · -- the backend has a buildVol entry point: async build protocol
      split at h
      · -- build failed: the operation errors out
        exact Except.noConfusion (congrArg Prod.snd h)
      · -- build succeeded
        obtain ⟨pB, hxB, hpdB, hvB⟩ :
            ∃ pB, getPoolByUUID
                (unmarkBuilding (markBuilding st1 p0.pdef.name v.name)
                  p0.pdef.name v.name) ref.uuid = some pB ∧
              pB.pdef = p0.pdef ∧
              volFind pB v.name = some { v with building := false } := by
          unfold unmarkBuilding markBuilding
          rw [getPoolByUUID_updatePool _ _ _ ?u1 _,
              getPoolByUUID_updatePool _ _ _ ?u2 _, hx1]
          case u1 => intro q; rfl
          case u2 => intro q; rfl
          simp only [Option.map_some']
          simp only [beq_self_eq_true, if_true]
          refine ⟨_, rfl, rfl, ?_⟩
          unfold volFind
          dsimp only
          rw [find?_name_map _ _ ?n1 _, find?_name_map _ _ ?n2 _,
              find?_name_append_self _ _ hvnone']
          case n1 => intro w; dsimp only; split <;> rfl
          case n2 => intro w; dsimp only; split <;> rfl
          simp
        obtain ⟨p', v', h1, h2, h3, h4, h5⟩ :=
          volCreateTail_counters h hxB (by rw [hpdB]) hvB rfl
        rw [hpdB] at h4 h5
        refine ⟨p', v', h1, ?_, h4, h5⟩
        rw [h3]
        exact h2
    · -- no buildVol entry point
      obtain ⟨p', v', h1, h2, h3, h4, h5⟩ :=
        volCreateTail_counters h hx1 rfl hv1 rfl
      rw [show ({ p0 with vols := p0.vols ++ [v] } : PoolObj).pdef = p0.pdef
        from rfl] at h4 h5
      refine ⟨p', v', h1, ?_, h4, h5⟩
      rw [h3]
      exact h2

/-- A second test volume definition (capacity 20, allocation 10) used for
volume creation. -/
def tVol2 : VolDef := ⟨"v2", none, ⟨20, 10, true, 10, "/data/p1/v2"⟩, false, 0⟩

/-- C1 counterexample: the claim says that for the disk pool type none of
volume create, delete and resize changes the pool's counters; but a
successful resize with the allocate flag on a disk-pool volume (100/50
volume resized to 80 with the shrink and allocate flags) changes the disk
pool's allocation counter from 500 to 530 — `storageVolResize` updates the
pool counters without the disk-type exemption that create and delete
have. -/
theorem volResize_disk_pool_counters_change :
    diskPool.pdef.ptype = PoolType.disk ∧
    (getPoolByUUID st0 9).map (fun p => p.pdef.allocation) = some 500 ∧
    (storageVolResize st0 ⟨"pd", "v1"⟩ 80 ⟨true, false, true⟩
      (some capsAll) ocGood).2 = .ok () ∧
    (getPoolByUUID (storageVolResize st0 ⟨"pd", "v1"⟩ 80 ⟨true, false, true⟩
      (some capsAll) ocGood).1 9).map (fun p => p.pdef.allocation) = some 530 ∧
    (getPoolByUUID (storageVolResize st0 ⟨"pd", "v1"⟩ 80 ⟨true, false, true⟩
      (some capsAll) ocGood).1 9).map (fun p => p.pdef.available) = some 370 :=
  ⟨rfl, rfl, rfl, rfl, rfl⟩

/-- C1 (amended): pool counter maintenance by the volume operations.
Volume create and delete adjust the owning pool's allocation and available
counters by the volume's allocation for every pool type except disk, whose
counters these two operations leave unchanged (the disk backend
self-reports them); volume resize with the allocate flag adjusts the
counters by exactly the resize delta for every pool type, disk included,
and without the allocate flag leaves them unchanged. -/
theorem vol_ops_pool_counter_updates :
    (∀ (st st' : DriverState) (ref : PoolRef) (parsed : Option VolDef)
        (backend : Option Caps) (oc : Oc) (r : VolRef) (p : PoolObj),
      storageVolCreateXML st ref parsed backend oc = (st', .ok r) →
      getPoolByUUID st ref.uuid = some p →
      ∃ p' v', getPoolByUUID st' ref.uuid = some p' ∧
        volFind p' r.name = some v' ∧
        (p.pdef.ptype ≠ PoolType.disk →
          p'.pdef.allocation = add64 p.pdef.allocation v'.target.allocation ∧
          p'.pdef.available = sub64 p.pdef.available v'.target.allocation) ∧
        (p.pdef.ptype = PoolType.disk →
          p'.pdef.allocation = p.pdef.allocation ∧
          p'.pdef.available = p.pdef.available)) ∧
    (∀ (st st' : DriverState) (vref : VolRef) (backend : Option Caps) (oc : Oc)
        (u : Unit) (p : PoolObj) (v : VolDef) (caps : Caps),
      storageVolDelete st vref backend oc = (st', .ok u) →
      volDefFromVol st vref backend = .ok (p, v, caps) →
      ∃ p', getPoolByName st' vref.pool = some p' ∧
        (p.pdef.ptype ≠ PoolType.disk →
          p'.pdef.allocation = sub64 p.pdef.allocation v.target.allocation ∧
          p'.pdef.available = add64 p.pdef.available v.target.allocation) ∧
        (p.pdef.ptype = PoolType.disk →
          p'.pdef.allocation = p.pdef.allocation ∧
          p'.pdef.available = p.pdef.available)) ∧
    (∀ (st st' : DriverState) (vref : VolRef) (cap : Nat) (fl : ResizeFlags)
        (backend : Option Caps) (oc : Oc) (u : Unit) (p : PoolObj) (v : VolDef)
        (caps : Caps),
      storageVolResize st vref cap fl backend oc = (st', .ok u) →
      volDefFromVol st vref backend = .ok (p, v, caps) →
      ∃ p', getPoolByName st' vref.pool = some p' ∧
        (fl.allocate = true →
          p'.pdef.allocation = add64 p.pdef.allocation
            (resizeAbsCapacity fl cap v.target.capacity - v.target.allocation) ∧
          p'.pdef.available = sub64 p.pdef.available
            (resizeAbsCapacity fl cap v.target.capacity - v.target.allocation)) ∧
        (fl.allocate = false →
          p'.pdef.allocation = p.pdef.allocation ∧
          p'.pdef.available = p.pdef.available)) :=
  ⟨fun _ _ _ _ _ _ _ _ h hp => volCreateXML_counters h hp,
   fun _ _ _ _ _ _ _ _ _ h hres => volDelete_counters h hres,
   fun _ _ _ _ _ _ _ _ _ _ _ h hres => volResize_counters h hres⟩

/-- Witness for C1: the three conjuncts applied at concrete inputs — a
volume created in the directory pool (its refreshed allocation 50 added to
the counters), the test volume deleted from the directory pool, and the
disk-pool resize. -/
theorem vol_ops_pool_counter_updates_witness :
    (∃ p' v', getPoolByUUID (storageVolCreateXML st0 ⟨"p1", 7⟩ (some tVol2)
        (some capsAll) ocGood).1 7 = some p' ∧
      volFind p' (VolRef.name ⟨"p1", "v2"⟩) = some v' ∧
      (dirPool.pdef.ptype ≠ PoolType.disk →
        p'.pdef.allocation = add64 dirPool.pdef.allocation v'.target.allocation ∧
        p'.pdef.available = sub64 dirPool.pdef.available v'.target.allocation) ∧
      (dirPool.pdef.ptype = PoolType.disk →
        p'.pdef.allocation = dirPool.pdef.allocation ∧
        p'.pdef.available = dirPool.pdef.available)) ∧
    (∃ p', getPoolByName (storageVolDelete st0 ⟨"p1", "v1"⟩
        (some capsAll) ocGood).1 "p1" = some p' ∧
      (dirPool.pdef.ptype ≠ PoolType.disk →
        p'.pdef.allocation = sub64 dirPool.pdef.allocation tVol.target.allocation ∧
        p'.pdef.available = add64 dirPool.pdef.available tVol.target.allocation) ∧
      (dirPool.pdef.ptype = PoolType.disk →
        p'.pdef.allocation = dirPool.pdef.allocation ∧
        p'.pdef.available = dirPool.pdef.available)) ∧
    (∃ p', getPoolByName (storageVolResize st0 ⟨"pd", "v1"⟩ 80 ⟨true, false, true⟩
        (some capsAll) ocGood).1 "pd" = some p' ∧
      ((true : Bool) = true →
        p'.pdef.allocation = add64 diskPool.pdef.allocation
          (resizeAbsCapacity ⟨true, false, true⟩ 80 tVol.target.capacity -
            tVol.target.allocation) ∧
        p'.pdef.available = sub64 diskPool.pdef.available
          (resizeAbsCapacity ⟨true, false, true⟩ 80 tVol.target.capacity -
            tVol.target.allocation)) ∧
      ((true : Bool) = false →
        p'.pdef.allocation = diskPool.pdef.allocation ∧
        p'.pdef.available = diskPool.pdef.available)) :=
  ⟨vol_ops_pool_counter_updates.1 st0 _ ⟨"p1", 7⟩ (some tVol2) (some capsAll)
      ocGood ⟨"p1", "v2"⟩ dirPool rfl rfl,
   vol_ops_pool_counter_updates.2.1 st0 _ ⟨"p1", "v1"⟩ (some capsAll) ocGood
      () dirPool tVol capsAll rfl rfl,
   vol_ops_pool_counter_updates.2.2 st0 _ ⟨"pd", "v1"⟩ 80 ⟨true, false, true⟩
      (some capsAll) ocGood () diskPool tVol capsAll rfl rfl⟩

/-- C3: async-build job counter bookkeeping.  Volume build (`CreateXML`)
and clone (`CreateXMLFrom`) leave every pool's async job counter exactly
as they found it, on success and on every failure path; and in the
unlocked build window the counter of the destination pool — and, for a
cross-pool clone, of the distinct source pool — is exactly one more than
before the operation, so an operation requiring the counter to be zero
observes it back at zero once the build completes (the counter, a `Nat`,
never goes negative). -/
theorem async_build_job_counter_balanced :
    (∀ (st : DriverState) (ref : PoolRef) (parsed : Option VolDef)
        (backend : Option Caps) (oc : Oc) (m : String),
      poolJobs (storageVolCreateXML st ref parsed backend oc).1 m = poolJobs st m) ∧
    (∀ (st : DriverState) (ref : PoolRef) (parsed : Option VolDef) (vsrc : VolRef)
        (backend : Option Caps) (oc : Oc) (m : String),
      poolJobs (storageVolCreateXMLFrom st ref parsed vsrc backend oc).1 m =
        poolJobs st m) ∧
    (∀ (st : DriverState) (ref : PoolRef) (parsed : Option VolDef)
        (backend : Option Caps) (oc : Oc) (n : String) (stMid : DriverState),
      volCreateBuildWindow st ref parsed backend oc = some (n, stMid) →
      poolJobs stMid n = (poolJobs st n).map (· + 1)) ∧
    (∀ (st : DriverState) (ref : PoolRef) (parsed : Option VolDef) (vsrc : VolRef)
        (backend : Option Caps) (oc : Oc) (d : String) (sd : Option String)
        (stMid : DriverState),
      volCreateFromBuildWindow st ref parsed vsrc backend oc = some (d, sd, stMid) →
      sd ≠ some d →
      poolJobs stMid d = (poolJobs st d).map (· + 1) ∧
        (∀ s, sd = some s → poolJobs stMid s = (poolJobs st s).map (· + 1))) :=
  ⟨storageVolCreateXML_poolJobs, storageVolCreateXMLFrom_poolJobs,
   fun _ _ _ _ _ _ _ h => volCreateBuildWindow_jobs h,
   fun _ _ _ _ _ _ _ _ _ h hne => volCreateFromBuildWindow_jobs h hne⟩

/-- Witness for C3: a concrete build into the directory pool and a
concrete cross-pool clone from the disk pool into the directory pool — the
job counters are balanced afterwards, and in the respective build windows
the destination (and source) pool counters are exactly one higher. -/
theorem async_build_job_counter_balanced_witness :
    (poolJobs (storageVolCreateXML st0 ⟨"p1", 7⟩ (some tVol2)
        (some capsAll) ocGood).1 "p1" = poolJobs st0 "p1") ∧
    (poolJobs (storageVolCreateXMLFrom st0 ⟨"p1", 7⟩ (some tVol2) ⟨"pd", "v1"⟩
        (some capsAll) ocGood).1 "pd" = poolJobs st0 "pd") ∧
    (∃ stMid, volCreateBuildWindow st0 ⟨"p1", 7⟩ (some tVol2)
        (some capsAll) ocGood = some ("p1", stMid) ∧
      poolJobs stMid "p1" = (poolJobs st0 "p1").map (· + 1)) ∧
    (∃ stMid, volCreateFromBuildWindow st0 ⟨"p1", 7⟩ (some tVol2) ⟨"pd", "v1"⟩
        (some capsAll) ocGood = some ("p1", some "pd", stMid) ∧
      poolJobs stMid "p1" = (poolJobs st0 "p1").map (· + 1) ∧
      (∀ s, (some "pd" : Option String) = some s →
        poolJobs stMid s = (poolJobs st0 s).map (· + 1))) :=
  ⟨async_build_job_counter_balanced.1 st0 ⟨"p1", 7⟩ (some tVol2)
      (some capsAll) ocGood "p1",
   async_build_job_counter_balanced.2.1 st0 ⟨"p1", 7⟩ (some tVol2) ⟨"pd", "v1"⟩
      (some capsAll) ocGood "pd",
   ⟨_, rfl, async_build_job_counter_balanced.2.2.1 st0 ⟨"p1", 7⟩ (some tVol2)
      (some capsAll) ocGood "p1" _ rfl⟩,
   ⟨_, rfl, (async_build_job_counter_balanced.2.2.2 st0 ⟨"p1", 7⟩ (some tVol2)
      ⟨"pd", "v1"⟩ (some capsAll) ocGood "p1" (some "pd") _ rfl
      (by decide)).1,
    (async_build_job_counter_balanced.2.2.2 st0 ⟨"p1", 7⟩ (some tVol2)
      ⟨"pd", "v1"⟩ (some capsAll) ocGood "p1" (some "pd") _ rfl
      (by decide)).2⟩⟩

theorem noDup_names {st : DriverState} {d : PoolDef}
    (h : isDuplicate st d = false) : ∀ p ∈ st.pools, p.pdef.name ≠ d.name := by
  intro p hp
  unfold isDuplicate at h
  rw [List.any_eq_false] at h
  have := h p hp
  simp only [Bool.or_eq_true, beq_iff_eq, not_or] at this
  exact this.1

theorem map_noMatch (l : List PoolObj) (n : String) (f : PoolObj → PoolObj)
    (h : ∀ p ∈ l, p.pdef.name ≠ n) :
    l.map (fun p => if p.pdef.name == n then f p else p) = l := by
  have h2 : ∀ p ∈ l, (fun p => if p.pdef.name == n then f p else p) p = id p := by
    intro p hp
    simp [h p hp]
  rw [List.map_congr_left h2, List.map_id]

theorem filter_noMatch (l : List PoolObj) (n : String)
    (h : ∀ p ∈ l, p.pdef.name ≠ n) :
    l.filter (fun p => p.pdef.name != n) = l := by
  apply List.filter_eq_self.mpr
  intro p hp
  simp [h p hp]

theorem filter_files_noMem (files : List String) (n : String) (h : n ∉ files) :
    files.filter (fun m => m != n) = files := by
  apply List.filter_eq_self.mpr
  intro m hm
  have : m ≠ n := fun he => h (he ▸ hm)
  simp [this]

/-- C6: atomicity of pool `CreateXML` with respect to the registry.  With
all the pre-insertion checks passing (so the fresh Pool Object is
inserted), any later failure — pool build failure, start failure,
state-file write failure, or refresh failure — removes the object again,
unlinks a state file that was written, and returns failure: the registry
and the state-file set end exactly as they began. -/
theorem poolCreateXML_failure_rolls_back (st : DriverState) (d : PoolDef)
    (fl : PoolCreateFlags) (caps : Caps) (oc : Oc)
    (hexcl : (fl.overwrite && fl.noOverwrite) = false)
    (hacl : oc.acl = true)
    (hdup : isDuplicate st d = false)
    (hsrc : oc.sourceDup = false)
    (hfile : d.name ∉ st.stateFiles)
    (hfail : (caps.hasBuildPool && buildRequested fl && !oc.buildPool) = true ∨
             (caps.hasStartPool && !oc.startPool) = true ∨
             oc.saveState = false ∨ oc.rpOk = false) :
    (storagePoolCreateXML st (some d) fl (some caps) oc).1.pools = st.pools ∧
    (storagePoolCreateXML st (some d) fl (some caps) oc).1.stateFiles =
      st.stateFiles ∧
    (storagePoolCreateXML st (some d) fl (some caps) oc).1.events = st.events ∧
    ∃ e, (storagePoolCreateXML st (some d) fl (some caps) oc).2 = .error e := by
  have hnames := noDup_names hdup
  unfold storagePoolCreateXML
  rw [if_neg (by simp [hexcl])]
  try dsimp only
  rw [if_neg (by simp [hacl]), if_neg (by simp [hdup]), if_neg (by simp [hsrc])]
  try dsimp only
  by_cases c1 : (caps.hasBuildPool && buildRequested fl && !oc.buildPool) = true
  · rw [if_pos c1]
    try dsimp only
    unfold removePool
    try dsimp only
    rw [List.filter_append, filter_noMatch _ _ hnames]
    refine ⟨?_, rfl, rfl, _, rfl⟩
    simp [freshPoolObj]
  · rw [if_neg c1]
    by_cases c2 : (caps.hasStartPool && !oc.startPool) = true
    · rw [if_pos c2]
      try dsimp only
      unfold removePool
      try dsimp only
      rw [List.filter_append, filter_noMatch _ _ hnames]
      refine ⟨?_, rfl, rfl, _, rfl⟩
      simp [freshPoolObj]
    · rw [if_neg c2]
      try dsimp only
      by_cases c3 : oc.saveState = false
      · rw [if_pos (by simp [c3])]
        try dsimp only
        unfold removePool removeStateFile updatePool
        try dsimp only
        rw [filter_files_noMem _ _ hfile]
        rw [List.map_append, map_noMatch _ _ _ hnames, List.filter_append,
            filter_noMatch _ _ hnames]
        refine ⟨?_, rfl, rfl, _, rfl⟩
        simp [freshPoolObj]
      · rw [if_neg (by simp [c3])]
        have c4 : oc.rpOk = false := by
          rcases hfail with h | h | h | h
          · exact absurd h c1
          · exact absurd h c2
          · exact absurd h c3
          · exact h
        try dsimp only
        rw [if_pos (by simp [c4])]
        unfold removePool removeStateFile addStateFile updatePool
        try dsimp only
        rw [if_neg hfile]
        try dsimp only
        rw [List.filter_append, filter_files_noMem _ _ hfile]
        rw [List.map_append, map_noMatch _ _ _ hnames,
            List.map_append, map_noMatch _ _ _ hnames,
            List.filter_append, filter_noMatch _ _ hnames]
        refine ⟨?_, ?_, rfl, _, rfl⟩
        · simp [freshPoolObj]
        · simp

/-- A pool definition not yet present in the test state. -/
def p2Def : PoolDef := ⟨"p2", 11, .dir, 0, 0, 0, "/data/p2"⟩

/-- Witness for C6: creating pool "p2" over the two-pool test state with a
failing backend refresh leaves the registry, the state files and the event
queue exactly as they were and returns an error. -/
theorem poolCreateXML_failure_rolls_back_witness :
    (storagePoolCreateXML st0 (some p2Def) ⟨false, false, false⟩
      (some capsAll) ocRpFail).1.pools = st0.pools ∧
    (storagePoolCreateXML st0 (some p2Def) ⟨false, false, false⟩
      (some capsAll) ocRpFail).1.stateFiles = st0.stateFiles ∧
    (storagePoolCreateXML st0 (some p2Def) ⟨false, false, false⟩
      (some capsAll) ocRpFail).1.events = st0.events ∧
    ∃ e, (storagePoolCreateXML st0 (some p2Def) ⟨false, false, false⟩
      (some capsAll) ocRpFail).2 = .error e :=
  poolCreateXML_failure_rolls_back st0 p2Def ⟨false, false, false⟩ capsAll
    ocRpFail rfl rfl (by decide) rfl (by decide)
    (Or.inr (Or.inr (Or.inr rfl)))

/-- Registry well-formedness: a pending replacement definition keeps the
pool's name (a define over an existing pool replaces it under the same
name). -/
def pendingSameName (st : DriverState) : Prop :=
  ∀ p ∈ st.pools, ∀ d ∈ p.newDef, d.name = p.pdef.name

instance (st : DriverState) : Decidable (pendingSameName st) := by
  unfold pendingSameName; infer_instance

theorem addStateFile_pools (st : DriverState) (n : String) :
    (addStateFile st n).pools = st.pools := by
  unfold addStateFile; split <;> rfl

theorem mem_addStateFile (st : DriverState) (n m : String) :
    m ∈ (addStateFile st n).stateFiles ↔ m ∈ st.stateFiles ∨ m = n := by
  unfold addStateFile
  split
  · rename_i hmem
    constructor
    · exact Or.inl
    · rintro (h | rfl)
      · exact h
      · exact hmem
  · dsimp only
    rw [List.mem_append, List.mem_singleton]

theorem mem_removeStateFile (st : DriverState) (n m : String) :
    m ∈ (removeStateFile st n).stateFiles ↔ m ∈ st.stateFiles ∧ m ≠ n := by
  unfold removeStateFile
  dsimp only
  rw [List.mem_filter]
  constructor
  · rintro ⟨h1, h2⟩
    exact ⟨h1, by simpa using h2⟩
  · rintro ⟨h1, h2⟩
    exact ⟨h1, by simpa using h2⟩

theorem stateFileInv_updatePool (st : DriverState) (n : String) (f : PoolObj → PoolObj)
    (hfn : ∀ p, (f p).pdef.name = p.pdef.name)
    (hfa : ∀ p, (f p).isActive = p.isActive)
    (h : stateFileInv st) : stateFileInv (updatePool st n f) := by
  intro q hq
  have hq' : q ∈ st.pools.map (fun r => if r.pdef.name == n then f r else r) := hq
  rw [List.mem_map] at hq'
  obtain ⟨q0, hq0, rfl⟩ := hq'
  by_cases hc : (q0.pdef.name == n) = true
  · rw [if_pos hc, hfa, hfn]
    exact h q0 hq0
  · rw [if_neg hc]
    exact h q0 hq0

theorem stateFileInv_removePool (st : DriverState) (n : String)
    (h : stateFileInv st) : stateFileInv (removePool st n) := by
  intro q hq
  have hq' : q ∈ st.pools.filter (fun p => p.pdef.name != n) := hq
  exact h q (List.mem_of_mem_filter hq')

theorem stateFileInv_createSuccess (st : DriverState) (n : String)
    (f1 f2 f3 : PoolObj → PoolObj)
    (h1n : ∀ p, (f1 p).pdef.name = p.pdef.name)
    (h2n : ∀ p, (f2 p).pdef.name = p.pdef.name)
    (h3n : ∀ p, (f3 p).pdef.name = p.pdef.name)
    (h1a : ∀ p, (f1 p).isActive = p.isActive)
    (h2a : ∀ p, (f2 p).isActive = p.isActive)
    (h3a : ∀ p, (f3 p).isActive = true)
    (h : stateFileInv st) :
    stateFileInv (updatePool (updatePool (addStateFile (updatePool st n f1) n) n f2) n f3) := by
  intro q hq
  have hq' : q ∈ (((updatePool st n f1).pools.map
      (fun r => if r.pdef.name == n then f2 r else r)).map
      (fun r => if r.pdef.name == n then f3 r else r)) := by
    have hq2 : q ∈ (((addStateFile (updatePool st n f1) n).pools.map
        (fun r => if r.pdef.name == n then f2 r else r)).map
        (fun r => if r.pdef.name == n then f3 r else r)) := hq
    rwa [addStateFile_pools] at hq2
  rw [List.mem_map] at hq'
  obtain ⟨q1, hq1, rfl⟩ := hq'
  rw [List.mem_map] at hq1
  obtain ⟨q2, hq2, rfl⟩ := hq1
  have hq3 : q2 ∈ st.pools.map (fun r => if r.pdef.name == n then f1 r else r) := hq2
  rw [List.mem_map] at hq3
  obtain ⟨q0, hq0, rfl⟩ := hq3
  have hsf : ∀ m : String,
      m ∈ (updatePool (updatePool (addStateFile (updatePool st n f1) n) n f2) n f3).stateFiles ↔
        m ∈ st.stateFiles ∨ m = n := fun m => mem_addStateFile (updatePool st n f1) n m
  by_cases hc : (q0.pdef.name == n) = true
  · rw [if_pos hc]
    have hc1 : ((f1 q0).pdef.name == n) = true := by rw [h1n]; exact hc
    rw [if_pos hc1]
    have hc2 : ((f2 (f1 q0)).pdef.name == n) = true := by rw [h2n]; exact hc1
    rw [if_pos hc2]
    rw [h3a, h3n, h2n, h1n, hsf]
    have hqn : q0.pdef.name = n := by rwa [beq_iff_eq] at hc
    exact ⟨fun _ => Or.inr hqn, fun _ => rfl⟩
  · rw [if_neg hc, if_neg hc, if_neg hc, hsf]
    have hqn : q0.pdef.name ≠ n := by
      intro e
      exact hc (by rw [e]; exact beq_self_eq_true n)
    constructor
    · intro ha
      exact Or.inl ((h q0 hq0).mp ha)
    · rintro (hm | hm)
      · exact (h q0 hq0).mpr hm
      · exact absurd hm hqn

theorem stateFileInv_destroyCore (st : DriverState) (n : String) (e : Event)
    (f1 f2 : PoolObj → PoolObj)
    (h1n : ∀ p, (f1 p).pdef.name = p.pdef.name)
    (h2n : ∀ p, (f2 p).pdef.name = p.pdef.name)
    (h1a : ∀ p, (f1 p).isActive = p.isActive)
    (h2a : ∀ p, (f2 p).isActive = false)
    (h : stateFileInv st) :
    stateFileInv (updatePool (pushEvent (updatePool (removeStateFile st n) n f1) e) n f2) := by
  intro q hq
  have hq' : q ∈ (st.pools.map (fun r => if r.pdef.name == n then f1 r else r)).map
      (fun r => if r.pdef.name == n then f2 r else r) := hq
  rw [List.mem_map] at hq'
  obtain ⟨q1, hq1, rfl⟩ := hq'
  rw [List.mem_map] at hq1
  obtain ⟨q0, hq0, rfl⟩ := hq1
  have hsf : ∀ m : String,
      m ∈ (updatePool (pushEvent (updatePool (removeStateFile st n) n f1) e) n f2).stateFiles ↔
        m ∈ st.stateFiles ∧ m ≠ n := fun m => mem_removeStateFile st n m
  by_cases hc : (q0.pdef.name == n) = true
  · rw [if_pos hc]
    have hc1 : ((f1 q0).pdef.name == n) = true := by rw [h1n]; exact hc
    rw [if_pos hc1]
    rw [h2a, h2n, h1n, hsf]
    simp only [Bool.false_eq_true, false_iff]
    rintro ⟨_, hne⟩
    exact hne (by rwa [beq_iff_eq] at hc)
  · rw [if_neg hc, if_neg hc, hsf]
    have hqn : q0.pdef.name ≠ n := by
      intro e2
      exact hc (by rw [e2]; exact beq_self_eq_true n)
    constructor
    · intro ha
      exact ⟨(h q0 hq0).mp ha, hqn⟩
    · rintro ⟨hm, _⟩
      exact (h q0 hq0).mpr hm

theorem pendingSameName_updatePool (st : DriverState) (n : String) (f : PoolObj → PoolObj)
    (hfd : ∀ p, (f p).newDef = p.newDef)
    (hfn : ∀ p, (f p).pdef.name = p.pdef.name)
    (h : pendingSameName st) : pendingSameName (updatePool st n f) := by
  intro q hq d hd
  have hq' : q ∈ st.pools.map (fun r => if r.pdef.name == n then f r else r) := hq
  rw [List.mem_map] at hq'
  obtain ⟨q0, hq0, rfl⟩ := hq'
  by_cases hc : (q0.pdef.name == n) = true
  · rw [if_pos hc] at hd ⊢
    rw [hfn]
    exact h q0 hq0 d (by rwa [hfd] at hd)
  · rw [if_neg hc] at hd ⊢
    exact h q0 hq0 d hd

theorem stateFileInv_poolUpdateInactive (st : DriverState) (n : String)
    (hps : pendingSameName st) (h : stateFileInv st) :
    stateFileInv (poolUpdateInactive st n) := by
  unfold poolUpdateInactive
  cases hg : getPoolByName st n with
  | none => exact h
  | some p =>
    dsimp only
    by_cases hcf : p.configFile.isNone = true
    · rw [if_pos hcf]
      exact stateFileInv_removePool st n h
    · rw [if_neg hcf]
      cases hnd : p.newDef with
      | none => exact h
      | some d =>
        have hpn : p.pdef.name = n := getPoolByName_some_name hg
        have hpm : p ∈ st.pools := List.mem_of_find?_eq_some hg
        have hdn : d.name = p.pdef.name := hps p hpm d (Option.mem_def.mpr hnd)
        intro q hq
        have hq' : q ∈ st.pools.map (fun r =>
            if r.pdef.name == n then { r with pdef := d, newDef := none } else r) := hq
        rw [List.mem_map] at hq'
        obtain ⟨q0, hq0, rfl⟩ := hq'
        have h0 := h q0 hq0
        by_cases hc : (q0.pdef.name == n) = true
        · rw [if_pos hc]
          have hqn : q0.pdef.name = n := by rwa [beq_iff_eq] at hc
          show q0.isActive = true ↔ d.name ∈ st.stateFiles
          rw [hdn, hpn, ← hqn]
          exact h0
        · rw [if_neg hc]
          exact h0

/-- First step of the counterexample trace: define the directory pool. -/
def c2op1 : Op := .defineXML (some dirDef) (some capsAll) ocGood

/-- Second step of the counterexample trace: start the pool (writing its
state file). -/
def c2op2 : Op := .poolCreate ⟨"p1", 7⟩ ⟨false, false, false⟩ (some capsAll) ocGood

/-- Third step of the counterexample trace: refresh the pool with a failing
backend refresh. -/
def c2op3 : Op := .poolRefresh ⟨"p1", 7⟩ (some capsAll) ocRpFail

/-- The quiescent state reached by define → start → failed refresh. -/
def c2BadState : DriverState :=
  applyOp (applyOp (applyOp initState c2op1) c2op2) c2op3

/-- Counterexample to C2 as stated: the trace define → start → failed
refresh ends in a reachable quiescent state (no operation in flight, the
pool's async job counter is zero) in which pool "p1" is inactive while its
state file still exists — the failed-refresh path of `storagePoolRefresh`
deactivates the pool but never unlinks the state file. -/
theorem failed_refresh_breaks_stateFileInv :
    Reachable c2BadState ∧ ¬ stateFileInv c2BadState :=
  ⟨Reachable.step c2op3 (Reachable.step c2op2 (Reachable.step c2op1 Reachable.init)),
   by decide⟩

/-- C2 (amended): the state-file invariant — every registered pool is
active exactly when a state file under its name exists — is preserved by
every *successful* `storagePoolCreate`, `storagePoolRefresh` and
`storagePoolDestroy` (the destroy case additionally assumes pending
replacement definitions keep their pool's name, which the define path
guarantees); the failure paths of refresh and destroy do not preserve it. -/
theorem pool_lifecycle_preserves_stateFileInv :
    (∀ st ref fl backend oc st' (u : Unit),
        storagePoolCreate st ref fl backend oc = (st', Except.ok u) →
        stateFileInv st → stateFileInv st') ∧
    (∀ st ref backend oc st' (u : Unit),
        storagePoolRefresh st ref backend oc = (st', Except.ok u) →
        stateFileInv st → stateFileInv st') ∧
    (∀ st ref backend oc st' (u : Unit),
        storagePoolDestroy st ref backend oc = (st', Except.ok u) →
        stateFileInv st → pendingSameName st → stateFileInv st') := by
  refine ⟨?_, ?_, ?_⟩
  · intro st ref fl backend oc st' u h hinv
    unfold storagePoolCreate at h
    dsimp only at h
    repeat' split at h
    any_goals exact Except.noConfusion (congrArg Prod.snd h)
    have h1 := congrArg Prod.fst h
    dsimp only at h1
    rw [← h1]
    refine stateFileInv_createSuccess st _ _ _ _ ?_ ?_ ?_ ?_ ?_ ?_ hinv <;>
      intro p <;> rfl
  · intro st ref backend oc st' u h hinv
    unfold storagePoolRefresh at h
    dsimp only at h
    repeat' split at h
    any_goals exact Except.noConfusion (congrArg Prod.snd h)
    have h1 := congrArg Prod.fst h
    dsimp only at h1
    rw [← h1]
    refine stateFileInv_updatePool st _ _ ?_ ?_ hinv <;> intro p <;> rfl
  · intro st ref backend oc st' u h hinv hps
    unfold storagePoolDestroy at h
    dsimp only at h
    repeat' split at h
    any_goals exact Except.noConfusion (congrArg Prod.snd h)
    have h1 := congrArg Prod.fst h
    dsimp only at h1
    rw [← h1]
    refine stateFileInv_poolUpdateInactive _ _ ?_ ?_
    · refine pendingSameName_updatePool _ _ _ ?_ ?_
        (pendingSameName_updatePool _ _ _ ?_ ?_ hps) <;> intro p <;> rfl
    · refine stateFileInv_destroyCore st _ _ _ _ ?_ ?_ ?_ ?_ hinv <;>
        intro p <;> rfl

/-- An inactive persistent directory pool with no state file. -/
def stInact : DriverState :=
  ⟨[{ dirPool with isActive := false, vols := [] }], [], ["p1"], []⟩

/-- Witness for the amended C2: concrete successful start, refresh and
destroy calls each end in a state satisfying the state-file invariant. -/
theorem pool_lifecycle_preserves_stateFileInv_witness :
    stateFileInv (storagePoolCreate stInact ⟨"p1", 7⟩ ⟨false, false, false⟩
      (some capsAll) ocGood).1 ∧
    stateFileInv (storagePoolRefresh st0 ⟨"p1", 7⟩ (some capsAll) ocGood).1 ∧
    stateFileInv (storagePoolDestroy st0 ⟨"pd", 9⟩ (some capsAll) ocGood).1 :=
  ⟨pool_lifecycle_preserves_stateFileInv.1 stInact ⟨"p1", 7⟩ ⟨false, false, false⟩
      (some capsAll) ocGood _ () rfl (by decide),
   pool_lifecycle_preserves_stateFileInv.2.1 st0 ⟨"p1", 7⟩
      (some capsAll) ocGood _ () rfl (by decide),
   pool_lifecycle_preserves_stateFileInv.2.2 st0 ⟨"pd", 9⟩
      (some capsAll) ocGood _ () rfl (by decide) (by decide)⟩

end StorageDriver
